import Mathlib

/-!
# Connection lifecycle of the daemon (src/daemon/daemon.go)

A shallow embedding of the daemon's connection bookkeeping.

* Go maps keyed by string are association lists with at most one entry per
  key (`GoMap`): `set` overwrites, `delete` removes, `get` looks up and
  `len` counts.
* The collaborators that live outside the file (the gnet connection pool,
  the pex peer directory, the clock) are read through an `Env` value
  sampled when a handler runs; calls made on them are recorded, in order,
  as a list of `Effect`s returned by the handler.
* `time.Time` and `time.Duration` are integers counting nanoseconds.
* What package net reports about the machine (its interfaces, whether an
  address is a loopback address) is a `Host` value; `strings.Split` and
  `strconv.ParseUint` are modelled on lists of characters (`splitOn`,
  `ParseUint16`).
-/

namespace Skycoin

/-! ## Go maps keyed by string -/

/-- A Go map with string keys, kept as an association list. -/
def GoMap (V : Type) : Type := List (String × V)

namespace GoMap

variable {V : Type}

/-- The map returned by Go's make. -/
def empty : GoMap V := ([] : List (String × V))

/-- Lookup m[k]; none stands for the zero value (a nil pointer). -/
def get : GoMap V → String → Option V
  | [], _ => none
  | (k', v) :: m, k => if k' = k then some v else get m k

/-- Assignment m[k] = v. -/
def set : GoMap V → String → V → GoMap V
  | [], k, v => [(k, v)]
  | (k', v') :: m, k, v => if k' = k then (k, v) :: m else (k', v') :: set m k v

/-- Builtin delete(m, k). -/
def delete : GoMap V → String → GoMap V
  | [], _ => []
  | (k', v') :: m, k => if k' = k then delete m k else (k', v') :: delete m k

/-- Builtin len(m). -/
def len (m : GoMap V) : Int := (List.length m : Nat)

/-- Whether k is a key of m. -/
def contains (m : GoMap V) (k : String) : Bool := (get m k).isSome

/-- The entries visited by a range loop. -/
def entries (m : GoMap V) : List (String × V) := m

end GoMap

/-! ## Data model -/

/-- Nanoseconds, as time.Duration. -/
abbrev Duration := Int

/-- Nanoseconds since the epoch, as time.Time. -/
abbrev Time := Int

/-- Constant time.Second. -/
def Second : Duration := 1000000000

/-- Constant time.Hour. -/
def Hour : Duration := 3600 * Second

/-- Reasons a connection is closed: the six declared in daemon.go, the three
gnet reasons named in BlacklistOffenses, and any other value the transport
may hand to the disconnect callback. -/
inductive DisconnectReason where
  | DisconnectInvalidVersion
  | DisconnectIntroductionTimeout
  | DisconnectIsBlacklisted
  | DisconnectSelf
  | DisconnectConnectedTwice
  | DisconnectOtherError
  | gnetDisconnectInvalidMessageLength
  | gnetDisconnectMalformedMessage
  | gnetDisconnectUnknownMessage
  | gnetOther (msg : String)
  deriving DecidableEq, Repr

open DisconnectReason

/-- The map literal BlacklistOffenses, entry by entry. -/
def BlacklistOffensesTable : List (DisconnectReason × Duration) :=
  [ (DisconnectSelf, Hour * 24),
    (DisconnectIntroductionTimeout, Hour),
    (gnetDisconnectInvalidMessageLength, Hour * 8),
    (gnetDisconnectMalformedMessage, Hour * 8),
    (gnetDisconnectUnknownMessage, Hour * 8) ]

/-- Lookup BlacklistOffenses[reason]; none is the "not exists" result. -/
def BlacklistOffenses (reason : DisconnectReason) : Option Duration :=
  (BlacklistOffensesTable.find? (fun e => decide (e.1 = reason))).map Prod.snd

/-- Fields of dht.DHTConfig that daemon.go writes. -/
structure DHTConfig where
  Disabled : Bool
  Port : Int
  deriving DecidableEq, Repr

/-- Fields of PeersConfig that daemon.go writes. -/
structure PeersConfig where
  Disabled : Bool
  AllowLocalhost : Bool
  deriving DecidableEq, Repr

/-- Configuration for the Daemon. -/
structure DaemonConfig where
  Version : Int
  Address : String
  Port : Int
  DataDirectory : String
  OutgoingRate : Duration
  PrivateRate : Duration
  OutgoingMax : Int
  PendingMax : Int
  IntroductionWait : Duration
  CullInvalidRate : Duration
  DisableNetworking : Bool
  DisableOutgoingConnections : Bool
  DisableIncomingConnections : Bool
  LocalhostOnly : Bool
  deriving DecidableEq, Repr

/-- Subsystem configurations. -/
structure Config where
  Daemon : DaemonConfig
  Peers : PeersConfig
  DHT : DHTConfig
  deriving DecidableEq, Repr

/-- Defaults of NewDaemonConfig. -/
def NewDaemonConfig : DaemonConfig :=
  { Version := 3
    Address := ""
    Port := 6677
    DataDirectory := ""
    OutgoingRate := Second * 5
    PrivateRate := Second * 5
    OutgoingMax := 8
    PendingMax := 16
    IntroductionWait := Second * 30
    CullInvalidRate := Second * 3
    DisableNetworking := false
    DisableOutgoingConnections := false
    DisableIncomingConnections := false
    LocalhostOnly := false }

/-- An address of a network interface, as package net reports it: an IP
network with the text of its IP and whether that IP is a loopback address, or
an address of another kind. -/
inductive NetAddr where
  | IPNet (ip : String) (isLoopback : Bool)
  | Other
  deriving DecidableEq, Repr

/-- A network interface: what its Addrs method returns. -/
structure NetInterface where
  Addrs : Except String (List NetAddr)

/-- What package net answers on this machine: net.Interfaces() and, for
IsLocalhost, whether net.ParseIP(addr).IsLoopback(). -/
structure Host where
  Interfaces : Except String (List NetInterface)
  IsLocalhost : String → Bool

/-- The inner loop of LocalhostIP: the first loopback IP network among the
addresses of one interface. -/
def firstLoopback : List NetAddr → Option String
  | [] => none
  | NetAddr.IPNet ip true :: _ => some ip
  | _ :: aa => firstLoopback aa

/-- The outer loop of LocalhostIP over the interfaces. -/
def localhostLoop : List NetInterface → Except String String
  | [] => .error "No local IP found"
  | t :: tt =>
    match t.Addrs with
    | .error err => .error err
    | .ok aa =>
      match firstLoopback aa with
      | some ip => .ok ip
      | none => localhostLoop tt

/-- Returns the address for localhost on the machine. -/
def LocalhostIP (host : Host) : Except String String :=
  match host.Interfaces with
  | .error err => .error err
  | .ok tt => localhostLoop tt

/-- Method Config.preprocess; none is a log.Panicf. -/
def Config.preprocess (host : Host) (self : Config) : Option Config :=
  let config := self
  let afterLocal : Option Config :=
    if config.Daemon.LocalhostOnly then
      let withAddr : Option Config :=
        if config.Daemon.Address = "" then
          match LocalhostIP host with
          | .error _ => none
          | .ok localIP => some { config with Daemon := { config.Daemon with Address := localIP } }
        else
          if !host.IsLocalhost config.Daemon.Address then none else some config
      withAddr.map (fun config =>
        { config with
          DHT := { config.DHT with Disabled := true }
          Peers := { config.Peers with AllowLocalhost := true } })
    else some config
  afterLocal.map (fun config =>
    let config := { config with DHT := { config.DHT with Port := config.Daemon.Port } }
    if config.Daemon.DisableNetworking then
      { config with
        Peers := { config.Peers with Disabled := true }
        DHT := { config.DHT with Disabled := true }
        Daemon := { config.Daemon with
          DisableIncomingConnections := true
          DisableOutgoingConnections := true } }
    else config)

/-- A gnet connection handle: its identity and remote address (c.Addr()). -/
structure Connection where
  Id : Nat
  Addr : String
  deriving DecidableEq, Repr

/-- A pex peer record. -/
structure Peer where
  Addr : String
  Private : Bool
  deriving DecidableEq, Repr

/-- A failure to dial, with context. -/
structure ConnectionError where
  Addr : String
  Error : String
  deriving DecidableEq, Repr

/-- The handshake payload built by NewIntroductionMessage. -/
structure IntroductionMessage where
  Mirror : Nat
  Version : Int
  Port : Nat
  deriving DecidableEq, Repr

/-- The part of gnet.ConnectionPool the daemon reads. -/
structure ConnectionPool where
  ConfigPort : Nat
  Addresses : GoMap Connection

/-- Stateful properties of the daemon owned by the event loop. -/
structure Daemon where
  Config : DaemonConfig
  OutgoingConnections : GoMap Connection
  pendingConnections : GoMap Peer
  ExpectingIntroductions : GoMap Time

/-- The collaborators as a handler finds them when it runs. -/
structure Env where
  Pool : ConnectionPool
  IsBlacklisted : String → Bool
  Peerlist : List Peer
  RandomPublic : List Peer
  Now : Time
  MirrorConstant : Nat

/-- Calls a handler makes on its collaborators. -/
inductive Effect where
  | Disconnect (c : Connection) (reason : DisconnectReason)
  | Send (c : Connection) (m : IntroductionMessage)
  | RemovePeer (addr : String)
  | AddBlacklistEntry (addr : String) (duration : Duration)
  | Dial (p : Peer)
  deriving DecidableEq, Repr

/-- Function NewDaemon, as far as the maps and the configuration go. -/
def NewDaemon (host : Host) (config : Config) : Option Daemon :=
  (config.preprocess host).map (fun config =>
    { Config := config.Daemon
      ExpectingIntroductions := GoMap.empty
      OutgoingConnections := GoMap.empty
      pendingConnections := GoMap.empty })

/-- The port NewDaemon hands to gnet: uint16(d.Config.Port). -/
def NewPoolPort (d : Daemon) : Nat := (d.Config.Port % 65536).toNat

/-! ## Address parsing -/

/-- Library strings.Split for a one-byte separator: the pieces between the
separators, always at least one. -/
def splitOn (sep : Char) : List Char → List (List Char)
  | [] => [[]]
  | c :: cs =>
    if c = sep then [] :: splitOn sep cs
    else
      match splitOn sep cs with
      | [] => [[c]]
      | p :: ps => (c :: p) :: ps

/-- Value of a run of decimal digits, most significant first. -/
def digitsValue (s : List Char) : Nat :=
  s.foldl (fun acc c => acc * 10 + (c.toNat - 48)) 0

/-- Library strconv.ParseUint(s, 10, 16): a non-empty run of ASCII digits
whose value fits sixteen bits; none is a non-nil error. -/
def ParseUint16 (s : List Char) : Option Nat :=
  if s = [] then none
  else if s.all Char.isDigit then
    if digitsValue s ≤ 65535 then some (digitsValue s) else none
  else none

/-- The two errors SplitAddr formats. -/
inductive SplitAddrError where
  | InvalidAddr (addr : String)
  | InvalidPort (addr : String)
  deriving DecidableEq, Repr

/-- Splits an ip:port string to ip, port; the third component is the error
(none is nil). -/
def SplitAddr (addr : String) : String × Nat × Option SplitAddrError :=
  let pts := splitOn ':' addr.data
  if pts.length ≠ 2 then
    (String.mk (pts.headD []), 0, some (SplitAddrError.InvalidAddr addr))
  else
    match ParseUint16 (pts.getD 1 []) with
    | none => (String.mk (pts.headD []), 0, some (SplitAddrError.InvalidPort addr))
    | some port64 => (String.mk (pts.headD []), port64 % 65536, none)

/-- Returns the ListenPort for a given address. If no port is found, 0 is
returned. -/
def GetListenPort (addr : String) : Nat :=
  match (SplitAddr addr).2.2 with
  | some _ => 0
  | none => (SplitAddr addr).2.1

/-! ## Handlers -/

/-- Errors connectToPeer builds with errors.New. -/
inductive ConnectError where
  | OutgoingDisabled
  | InvalidPeer
  | AlreadyConnected
  deriving DecidableEq, Repr

/-- The text of each error. -/
def ConnectError.text : ConnectError → String
  | .OutgoingDisabled => "Outgoing connections disabled"
  | .InvalidPeer => "Invalid peer"
  | .AlreadyConnected => "Already connected"

/-- What a handler leaves behind: the daemon and the calls it made. -/
abbrev Outcome := Daemon × List Effect

/-- Connects to a given peer: the returned error (none is nil), the daemon
afterwards and the calls made. The goroutine is the Dial effect. -/
def connectToPeer (env : Env) (self : Daemon) (p : Peer) : Option ConnectError × Outcome :=
  if self.Config.DisableOutgoingConnections then
    (some ConnectError.OutgoingDisabled, self, [])
  else
    match (SplitAddr p.Addr).2.2 with
    | some _ => (some ConnectError.InvalidPeer, self, [])
    | none =>
      match env.Pool.Addresses.get p.Addr with
      | some _ => (some ConnectError.AlreadyConnected, self, [])
      | none =>
        (none,
          { self with pendingConnections := self.pendingConnections.set p.Addr p },
          [Effect.Dial p])

/-- The body of the goroutine connectToPeer starts: what it sends on
connectionErrors, given what Pool.Connect returned. -/
def dialTask (p : Peer) (connectResult : Except String Connection) : List ConnectionError :=
  match connectResult with
  | .error err => [{ Addr := p.Addr, Error := err }]
  | .ok _ => []

/-- The loop of makePrivateConnections over the peer list. -/
def privateLoop (env : Env) : List Peer → Outcome → Outcome
  | [], acc => acc
  | p :: ps, acc =>
    if p.Private then
      let r := connectToPeer env acc.1 p
      privateLoop env ps (r.2.1, acc.2 ++ r.2.2)
    else privateLoop env ps acc

/-- Connects to all private peers. -/
def makePrivateConnections (env : Env) (self : Daemon) : Outcome :=
  if self.Config.DisableOutgoingConnections then (self, [])
  else privateLoop env env.Peerlist (self, [])

/-- The loop of connectToRandomPeer: stop at the first nil. -/
def randomLoop (env : Env) : List Peer → Outcome → Outcome
  | [], acc => acc
  | p :: ps, acc =>
    let r := connectToPeer env acc.1 p
    if r.1 = none then (r.2.1, acc.2 ++ r.2.2)
    else randomLoop env ps (r.2.1, acc.2 ++ r.2.2)

/-- Attempts to connect to a random peer. -/
def connectToRandomPeer (env : Env) (self : Daemon) : Outcome :=
  if self.Config.DisableOutgoingConnections then (self, [])
  else randomLoop env env.RandomPublic (self, [])

/-- We remove a peer from the Pex if we failed to connect. -/
def handleConnectionError (self : Daemon) (c : ConnectionError) : Outcome :=
  ({ self with pendingConnections := self.pendingConnections.delete c.Addr },
    [Effect.RemovePeer c.Addr])

/-- One iteration of the range loop in cullInvalidConnections, on the
entry (a, t). -/
def cullEntry (env : Env) (acc : Outcome) (entry : String × Time) : Outcome :=
  let a := entry.1
  let t := entry.2
  match env.Pool.Addresses.get a with
  | none =>
    ({ acc.1 with ExpectingIntroductions := acc.1.ExpectingIntroductions.delete a }, acc.2)
  | some c =>
    if t + acc.1.Config.IntroductionWait < env.Now then
      ({ acc.1 with ExpectingIntroductions := acc.1.ExpectingIntroductions.delete a },
        acc.2 ++ [Effect.Disconnect c DisconnectIntroductionTimeout, Effect.RemovePeer a])
    else acc

/-- Removes unsolicited connections who have not sent a version. -/
def cullInvalidConnections (env : Env) (self : Daemon) : Outcome :=
  self.ExpectingIntroductions.entries.foldl (cullEntry env) (self, [])

/-- Called when a connection is established. -/
def onConnect (env : Env) (self : Daemon) (c : Connection) (solicited : Bool) : Outcome :=
  let a := c.Addr
  let d1 : Daemon := { self with pendingConnections := self.pendingConnections.delete a }
  if env.IsBlacklisted a then
    (d1, [Effect.Disconnect c DisconnectIsBlacklisted])
  else
    let e1 : List Effect :=
      if (env.Pool.Addresses.get a).isSome then [Effect.Disconnect c DisconnectConnectedTwice]
      else []
    let d2 : Daemon :=
      if solicited then { d1 with OutgoingConnections := d1.OutgoingConnections.set a c }
      else d1
    let d3 : Daemon :=
      { d2 with ExpectingIntroductions := d2.ExpectingIntroductions.set a env.Now }
    let m : IntroductionMessage :=
      { Mirror := env.MirrorConstant, Version := self.Config.Version,
        Port := env.Pool.ConfigPort }
    (d3, e1 ++ [Effect.Send c m])

/-- Triggered when a gnet connection terminates. -/
def onGnetDisconnect (self : Daemon) (c : Connection) (reason : DisconnectReason) : Outcome :=
  let a := c.Addr
  let e : List Effect :=
    match BlacklistOffenses reason with
    | some duration => [Effect.AddBlacklistEntry a duration]
    | none => []
  ({ self with
      OutgoingConnections := self.OutgoingConnections.delete a
      ExpectingIntroductions := self.ExpectingIntroductions.delete a }, e)

/-! ## The event loop -/

/-- The select cases of Start that touch the maps, and the callbacks the
transport makes into the daemon, each with what it finds outside. -/
inductive Event where
  | connectToPeer (env : Env) (p : Peer)
  | connectToRandomPeer (env : Env)
  | makePrivateConnections (env : Env)
  | onConnect (env : Env) (c : Connection) (solicited : Bool)
  | onGnetDisconnect (c : Connection) (reason : DisconnectReason)
  | handleConnectionError (e : ConnectionError)
  | cullInvalidConnections (env : Env)
  | outgoingConnectionsTicker (env : Env)
  | privateConnectionsTicker (env : Env)
  | cullInvalidTicker (env : Env)

/-- The case of outgoingConnectionsTicker in Start. -/
def outgoingTick (env : Env) (self : Daemon) : Outcome :=
  if !self.Config.DisableOutgoingConnections &&
      decide (self.OutgoingConnections.len < self.Config.OutgoingMax) &&
      decide (self.pendingConnections.len < self.Config.PendingMax) then
    connectToRandomPeer env self
  else (self, [])

/-- The case of privateConnectionsTicker in Start. -/
def privateTick (env : Env) (self : Daemon) : Outcome :=
  if !self.Config.DisableOutgoingConnections then makePrivateConnections env self
  else (self, [])

/-- The case of cullInvalidTicker in Start. -/
def cullTick (env : Env) (self : Daemon) : Outcome :=
  if !self.Config.DisableNetworking then cullInvalidConnections env self
  else (self, [])

/-- One event, handled to completion. -/
def step (self : Daemon) : Event → Outcome
  | .connectToPeer env p => (connectToPeer env self p).2
  | .connectToRandomPeer env => connectToRandomPeer env self
  | .makePrivateConnections env => makePrivateConnections env self
  | .onConnect env c solicited => onConnect env self c solicited
  | .onGnetDisconnect c reason => onGnetDisconnect self c reason
  | .handleConnectionError e => handleConnectionError self e
  | .cullInvalidConnections env => cullInvalidConnections env self
  | .outgoingConnectionsTicker env => outgoingTick env self
  | .privateConnectionsTicker env => privateTick env self
  | .cullInvalidTicker env => cullTick env self

/-- A finite sequence of events, handled one after the other. -/
def run (self : Daemon) : List Event → Daemon
  | [] => self
  | e :: es => run (step self e).1 es

/-! ## Properties spoken of by the specification -/

/-- No address is a key of both pendingConnections and OutgoingConnections. -/
def PendingOutgoingDisjoint (d : Daemon) : Prop :=
  ∀ a : String, ¬ (d.pendingConnections.contains a = true ∧ d.OutgoingConnections.contains a = true)

/-- The transport still holds a live connection for every address recorded
in OutgoingConnections. -/
def PoolCoversOutgoing (env : Env) (d : Daemon) : Prop :=
  ∀ a : String, d.OutgoingConnections.contains a = true → env.Pool.Addresses.contains a = true

/-- The requirement on what a dialing event finds outside: the transport
map covers OutgoingConnections. Events that do not dial ask nothing. -/
def Event.Covered (d : Daemon) : Event → Prop
  | .connectToPeer env _ => PoolCoversOutgoing env d
  | .connectToRandomPeer env => PoolCoversOutgoing env d
  | .makePrivateConnections env => PoolCoversOutgoing env d
  | .outgoingConnectionsTicker env => PoolCoversOutgoing env d
  | .privateConnectionsTicker env => PoolCoversOutgoing env d
  | _ => True

/-- Every dialing event of the sequence is covered in the state it runs in. -/
def RunCovered : Daemon → List Event → Prop
  | _, [] => True
  | d, e :: es => e.Covered d ∧ RunCovered (step d e).1 es

/-- Both caps of the outgoing-connect case hold. -/
def WithinCaps (d : Daemon) : Prop :=
  d.OutgoingConnections.len ≤ d.Config.OutgoingMax ∧
    d.pendingConnections.len ≤ d.Config.PendingMax

/-- Whether makePrivateConnections gets a dial started for the peer: it is
flagged private, its address parses and has no live connection. -/
def privateDialable (env : Env) (p : Peer) : Bool :=
  p.Private && (SplitAddr p.Addr).2.2.isNone && (env.Pool.Addresses.get p.Addr).isNone

/-- The old pending map plus the given peers, each under its address. -/
def addPending (m : GoMap Peer) (ps : List Peer) : GoMap Peer :=
  ps.foldl (fun acc p => acc.set p.Addr p) m

/-- The keys of the map are pairwise distinct, as in every Go map. -/
def GoMap.WF {V : Type} (m : GoMap V) : Prop := (m.entries.map Prod.fst).Nodup

/-- Whether the sweep of cullInvalidConnections deletes the entry: its
address is no longer live, or the introduction is overdue. -/
def cullDrops (env : Env) (wait : Duration) (entry : String × Time) : Bool :=
  match env.Pool.Addresses.get entry.1 with
  | none => true
  | some _ => decide (entry.2 + wait < env.Now)

/-- The calls the sweep makes on behalf of one entry. -/
def cullCalls (env : Env) (wait : Duration) (entry : String × Time) : List Effect :=
  match env.Pool.Addresses.get entry.1 with
  | none => []
  | some c =>
    if entry.2 + wait < env.Now then
      [Effect.Disconnect c DisconnectIntroductionTimeout, Effect.RemovePeer entry.1]
    else []

/-- The map left by a sweep over the given entries. -/
def sweep (env : Env) (wait : Duration) (es : List (String × Time)) (m : GoMap Time) :
    GoMap Time :=
  es.foldl (fun acc e => if cullDrops env wait e then acc.delete e.1 else acc) m

/-- The text of an address after its first colon. -/
def afterColon (s : String) : List Char :=
  (s.data.dropWhile (fun ch => ch != ':')).drop 1

/-- The text of an address before its first colon. -/
def beforeColon (s : String) : List Char :=
  s.data.takeWhile (fun ch => ch != ':')

/-- The host reports ip as a loopback address, and as the first one: some
interface lists an IP network with that IP flagged loopback, no address before
it on that interface is a loopback IP network, and every earlier interface
lists its addresses without error and has no loopback IP network. -/
def FirstLoopback (host : Host) (ip : String) : Prop :=
  ∃ (pre post : List NetInterface) (t : NetInterface) (aa1 aa2 : List NetAddr),
    host.Interfaces = .ok (pre ++ t :: post) ∧
    (∀ u ∈ pre, ∃ bb : List NetAddr, u.Addrs = .ok bb ∧
      ∀ x ∈ bb, ∀ ip' : String, x ≠ NetAddr.IPNet ip' true) ∧
    t.Addrs = .ok (aa1 ++ NetAddr.IPNet ip true :: aa2) ∧
    (∀ x ∈ aa1, ∀ ip' : String, x ≠ NetAddr.IPNet ip' true)

/-- The guard of the outgoingConnectionsTicker case in Start. -/
def OutgoingGuard (d : Daemon) : Prop :=
  d.Config.DisableOutgoingConnections = false ∧
    d.OutgoingConnections.len < d.Config.OutgoingMax ∧
    d.pendingConnections.len < d.Config.PendingMax

/-- The events whose dials, if any, go through the guard of the
outgoing-connect case: every event of the loop except the private-connect
tick and the bare dialing handlers. -/
def Event.dialsUnderCaps : Event → Bool
  | .outgoingConnectionsTicker _ => true
  | .onConnect _ _ _ => true
  | .onGnetDisconnect _ _ => true
  | .handleConnectionError _ => true
  | .cullInvalidConnections _ => true
  | .cullInvalidTicker _ => true
  | _ => false

/-! ## Concrete inputs -/

/-- A host whose loopback address is 127.0.0.1. -/
def sampleHost : Host :=
  { Interfaces := .ok
      [ { Addrs := .ok [NetAddr.Other, NetAddr.IPNet "192.168.1.7" false] },
        { Addrs := .ok [NetAddr.IPNet "127.0.0.1" true] } ]
    IsLocalhost := fun a => decide (a = "127.0.0.1") }

/-- The default daemon configuration with both other subsystems enabled. -/
def sampleConfig : Config :=
  { Daemon := NewDaemonConfig
    Peers := { Disabled := false, AllowLocalhost := false }
    DHT := { Disabled := false, Port := 0 } }

/-- The daemon NewDaemon builds from the default configuration. -/
def freshDaemon : Daemon :=
  { Config := NewDaemonConfig
    OutgoingConnections := GoMap.empty
    pendingConnections := GoMap.empty
    ExpectingIntroductions := GoMap.empty }

/-- An environment with the given live connections and peer lists, nobody
blacklisted. -/
def envWith (addresses : GoMap Connection) (peers : List Peer) (now : Time) : Env :=
  { Pool := { ConfigPort := 6677, Addresses := addresses }
    IsBlacklisted := fun _ => false
    Peerlist := peers
    RandomPublic := peers.filter (fun p => !p.Private)
    Now := now
    MirrorConstant := 424242 }

/-- The address of the scenarios in the specification. -/
def addrA : String := "10.0.0.5:6677"

/-- A second address. -/
def addrB : String := "10.0.0.6:6677"

/-- A connection to addrA. -/
def connA : Connection := { Id := 1, Addr := addrA }

/-- A later, second connection to addrA. -/
def connA2 : Connection := { Id := 2, Addr := addrA }

/-- The public peer at addrA. -/
def peerA : Peer := { Addr := addrA, Private := false }

/-- The public peer at addrB. -/
def peerB : Peer := { Addr := addrB, Private := false }

/-- The transport map holding exactly connA. -/
def poolA : GoMap Connection := (GoMap.empty).set addrA connA

/-- Connect to addrA, then dial addrA and addrB while the transport holds
the connection to addrA. -/
def coveredTrace : List Event :=
  [Event.onConnect (envWith GoMap.empty [] 100) connA true,
   Event.connectToPeer (envWith poolA [] 200) peerA,
   Event.connectToPeer (envWith poolA [] 300) peerB]

/-- Seventeen private peers at distinct well-formed addresses. -/
def seventeenPrivatePeers : List Peer :=
  [ { Addr := "10.0.1.1:6677", Private := true }, { Addr := "10.0.1.2:6677", Private := true },
    { Addr := "10.0.1.3:6677", Private := true }, { Addr := "10.0.1.4:6677", Private := true },
    { Addr := "10.0.1.5:6677", Private := true }, { Addr := "10.0.1.6:6677", Private := true },
    { Addr := "10.0.1.7:6677", Private := true }, { Addr := "10.0.1.8:6677", Private := true },
    { Addr := "10.0.1.9:6677", Private := true }, { Addr := "10.0.1.10:6677", Private := true },
    { Addr := "10.0.1.11:6677", Private := true }, { Addr := "10.0.1.12:6677", Private := true },
    { Addr := "10.0.1.13:6677", Private := true }, { Addr := "10.0.1.14:6677", Private := true },
    { Addr := "10.0.1.15:6677", Private := true }, { Addr := "10.0.1.16:6677", Private := true },
    { Addr := "10.0.1.17:6677", Private := true } ]

/-- The daemon after a solicited connection to addrA was accepted at time
100: addrA is recorded in OutgoingConnections and ExpectingIntroductions. -/
def connectedDaemon : Daemon :=
  (onConnect (envWith GoMap.empty [] 100) freshDaemon connA true).1

/-- An environment in which exactly addrA is blacklisted. -/
def blacklistEnv : Env :=
  { envWith GoMap.empty [] 100 with IsBlacklisted := fun a => decide (a = addrA) }

/-- The daemon with a dial to addrA pending. -/
def pendingDaemon : Daemon :=
  { freshDaemon with pendingConnections := (GoMap.empty).set addrA peerA }

/-- The peer of the scenario whose address does not parse. -/
def badPeer : Peer := { Addr := "not-an-address", Private := false }

/-- The fresh daemon with outgoing connections disabled. -/
def disabledDaemon : Daemon :=
  { freshDaemon with
    Config := { NewDaemonConfig with DisableOutgoingConnections := true } }

/-- A configuration asking for localhost only, with no address given and
networking disabled. -/
def localOnlyConfig : Config :=
  { Daemon := { NewDaemonConfig with LocalhostOnly := true, DisableNetworking := true }
    Peers := { Disabled := false, AllowLocalhost := false }
    DHT := { Disabled := false, Port := 0 } }

/-- A failed dial of addrA. -/
def dialFailureA : ConnectionError := { Addr := addrA, Error := "connection refused" }

/-- The daemon with dials to addrA and addrB pending. -/
def twoPendingDaemon : Daemon :=
  { freshDaemon with
    pendingConnections := ((GoMap.empty).set addrA peerA).set addrB peerB }

/-- A private peer at addrA. -/
def privateA : Peer := { Addr := addrA, Private := true }

/-- A private peer at addrB. -/
def privateB : Peer := { Addr := addrB, Private := true }

/-- A private peer whose address does not parse. -/
def privateBad : Peer := { Addr := "not-an-address", Private := true }

/-- A public peer at a third address. -/
def peerC : Peer := { Addr := "10.0.0.7:6677", Private := false }

/-- A third address. -/
def addrC : String := "10.0.0.7:6677"

/-- A connection to addrB. -/
def connB : Connection := { Id := 3, Addr := addrB }

/-- The transport map holding connA and connB. -/
def poolAB : GoMap Connection := ((GoMap.empty).set addrA connA).set addrB connB

/-- A daemon expecting three introductions: from addrA since time 0, from
addrB since second 10 and from addrC since time 0. -/
def cullDaemon : Daemon :=
  { freshDaemon with
    ExpectingIntroductions :=
      (((GoMap.empty).set addrA 0).set addrB 10000000000).set addrC 0 }

/-- The sweep at second 40 (IntroductionWait is 30 seconds), with addrA and
addrB live and addrC gone: addrA is overdue, addrB is exactly at its limit. -/
def cullEnv : Env := envWith poolAB [] 40000000000

/-- A host with two loopback addresses on its second interface, the IPv6
one listed first. -/
def twoLoopbackHost : Host :=
  { Interfaces := .ok
      [ { Addrs := .ok [NetAddr.Other, NetAddr.IPNet "192.168.1.7" false] },
        { Addrs := .ok [NetAddr.IPNet "::1" true, NetAddr.IPNet "127.0.0.1" true] } ]
    IsLocalhost := fun a => decide (a = "127.0.0.1") || decide (a = "::1") }

/-- Nine connections to distinct well-formed addresses. -/
def nineConnections : List Connection :=
  [ { Id := 11, Addr := "10.0.2.1:6677" }, { Id := 12, Addr := "10.0.2.2:6677" },
    { Id := 13, Addr := "10.0.2.3:6677" }, { Id := 14, Addr := "10.0.2.4:6677" },
    { Id := 15, Addr := "10.0.2.5:6677" }, { Id := 16, Addr := "10.0.2.6:6677" },
    { Id := 17, Addr := "10.0.2.7:6677" }, { Id := 18, Addr := "10.0.2.8:6677" },
    { Id := 19, Addr := "10.0.2.9:6677" } ]

/-- Nine outgoing-connect ticks, each offered one public peer at the address
of one of the nine connections, followed by the nine dials succeeding: one
solicited onConnect per connection. -/
def nineDialsSucceed : List Event :=
  nineConnections.map (fun c => Event.outgoingConnectionsTicker
      (envWith GoMap.empty [{ Addr := c.Addr, Private := false }] 100)) ++
    nineConnections.map (fun c => Event.onConnect (envWith GoMap.empty [] 200) c true)

/-! ## Lemmas on maps -/

namespace GoMap

variable {V : Type}

theorem get_set_self (m : GoMap V) (k : String) (v : V) : (m.set k v).get k = some v := by
  induction m with
  | nil => simp [set, get]
  | cons e m ih =>
    obtain ⟨k', v'⟩ := e
    by_cases h : k' = k
    · simp [set, get, h]
    · simp [set, get, h, ih]

theorem get_set_other (m : GoMap V) {k k' : String} (v : V) (h : k' ≠ k) :
    (m.set k v).get k' = m.get k' := by
  induction m with
  | nil => simp [set, get, Ne.symm h]
  | cons e m ih =>
    obtain ⟨k₀, v₀⟩ := e
    by_cases h0 : k₀ = k
    · subst h0
      simp [set, get, Ne.symm h]
    · by_cases h1 : k₀ = k'
      · subst h1
        simp [set, get, h0]
      · simp [set, get, h0, h1, ih]

theorem get_delete_self (m : GoMap V) (k : String) : (m.delete k).get k = none := by
  induction m with
  | nil => simp [delete, get]
  | cons e m ih =>
    obtain ⟨k', v'⟩ := e
    by_cases h : k' = k
    · simp [delete, h, ih]
    · simp [delete, get, h, ih]

theorem get_delete_other (m : GoMap V) {k k' : String} (h : k' ≠ k) :
    (m.delete k).get k' = m.get k' := by
  induction m with
  | nil => simp [delete, get]
  | cons e m ih =>
    obtain ⟨k₀, v₀⟩ := e
    by_cases h0 : k₀ = k
    · subst h0
      simp [delete, get, Ne.symm h, ih]
    · by_cases h1 : k₀ = k'
      · subst h1
        simp [delete, get, h0]
      · simp [delete, get, h0, h1, ih]

theorem len_set_le (m : GoMap V) (k : String) (v : V) : (m.set k v).len ≤ m.len + 1 := by
  have h : List.length (m.set k v) ≤ List.length m + 1 := by
    induction m with
    | nil => simp [set]
    | cons e m ih =>
      obtain ⟨k', v'⟩ := e
      by_cases h : k' = k
      · simp [set, h]
      · simpa [set, h] using ih
  unfold len
  exact_mod_cast h

theorem contains_delete_self (m : GoMap V) (k : String) : (m.delete k).contains k = false := by
  simp [contains, get_delete_self]

theorem contains_of_contains_delete (m : GoMap V) {k a : String}
    (h : (m.delete k).contains a = true) : m.contains a = true := by
  by_cases hak : a = k
  · subst hak
    rw [contains_delete_self] at h
    exact absurd h (by simp)
  · simpa [contains, get_delete_other m hak] using h

end GoMap

namespace GoMap

variable {V : Type}

theorem mem_entries_of_get (m : GoMap V) {k : String} {v : V} (h : m.get k = some v) :
    (k, v) ∈ m.entries := by
  induction m with
  | nil => simp [get] at h
  | cons e m ih =>
    obtain ⟨k', v'⟩ := e
    by_cases hk : k' = k
    · subst hk
      simp only [get, if_true, Option.some.injEq] at h
      subst h
      exact List.mem_cons_self _ _
    · simp only [get, hk, if_false] at h
      exact List.mem_cons_of_mem _ (ih h)

theorem get_ne_none_of_mem (m : GoMap V) {k : String} {v : V} (h : (k, v) ∈ m.entries) :
    m.get k ≠ none := by
  induction m with
  | nil => simp [entries] at h
  | cons e m ih =>
    obtain ⟨k', v'⟩ := e
    by_cases hk : k' = k
    · simp [get, hk]
    · simp only [get, hk, if_false]
      apply ih
      rcases List.mem_cons.1 h with h1 | h1
      · exact absurd (congrArg Prod.fst h1).symm hk
      · exact h1

theorem mem_delete (m : GoMap V) {k : String} {x : String × V}
    (h : x ∈ (m.delete k).entries) : x ∈ m.entries ∧ x.1 ≠ k := by
  induction m with
  | nil => simp [delete, entries] at h
  | cons e m ih =>
    obtain ⟨k', v'⟩ := e
    by_cases hk : k' = k
    · simp only [delete, hk, if_true] at h
      exact ⟨List.mem_cons_of_mem _ (ih h).1, (ih h).2⟩
    · simp only [delete, hk, if_false] at h
      rcases List.mem_cons.1 h with h1 | h1
      · subst h1
        exact ⟨List.mem_cons_self _ _, hk⟩
      · exact ⟨List.mem_cons_of_mem _ (ih h1).1, (ih h1).2⟩

theorem WF_empty : (GoMap.empty : GoMap V).WF := by
  simp [WF, entries, empty]

theorem WF_delete (m : GoMap V) (k : String) (h : m.WF) : (m.delete k).WF := by
  induction m with
  | nil => simpa [delete] using h
  | cons e m ih =>
    obtain ⟨k', v'⟩ := e
    have hcons : k' ∉ (entries m).map Prod.fst ∧ WF m := by
      simpa [WF, entries, List.nodup_cons] using h
    by_cases hk : k' = k
    · simp only [delete, hk, if_true]
      exact ih hcons.2
    · simp only [delete, hk, if_false]
      have ih' := ih hcons.2
      simp only [WF, entries, List.map_cons, List.nodup_cons]
      refine ⟨?_, ih'⟩
      intro hmem
      obtain ⟨x, hx, hx1⟩ := List.mem_map.1 hmem
      exact hcons.1 (List.mem_map.2 ⟨x, (mem_delete m hx).1, hx1⟩)

theorem mem_set (m : GoMap V) {k : String} {v : V} {x : String × V}
    (h : x ∈ (m.set k v).entries) : x = (k, v) ∨ x ∈ m.entries := by
  induction m with
  | nil => simpa [set, entries] using h
  | cons e m ih =>
    obtain ⟨k', v'⟩ := e
    by_cases hk : k' = k
    · simp only [set, hk, if_true] at h
      rcases List.mem_cons.1 h with h1 | h1
      · exact Or.inl h1
      · exact Or.inr (List.mem_cons_of_mem _ h1)
    · simp only [set, hk, if_false] at h
      rcases List.mem_cons.1 h with h1 | h1
      · exact Or.inr (h1 ▸ List.mem_cons_self _ _)
      · rcases ih h1 with h2 | h2
        · exact Or.inl h2
        · exact Or.inr (List.mem_cons_of_mem _ h2)

theorem WF_set (m : GoMap V) (k : String) (v : V) (h : m.WF) : (m.set k v).WF := by
  induction m with
  | nil => simp [set, WF, entries]
  | cons e m ih =>
    obtain ⟨k', v'⟩ := e
    have hcons : k' ∉ (entries m).map Prod.fst ∧ WF m := by
      simpa [WF, entries, List.nodup_cons] using h
    by_cases hk : k' = k
    · subst hk
      simp only [set, if_true]
      simpa [WF, entries, List.nodup_cons] using h
    · simp only [set, hk, if_false]
      have ih' := ih hcons.2
      simp only [WF, entries, List.map_cons, List.nodup_cons]
      refine ⟨?_, ih'⟩
      intro hmem
      obtain ⟨x, hx, hx1⟩ := List.mem_map.1 hmem
      rcases mem_set m hx with h2 | h2
      · subst h2
        exact hk hx1.symm
      · exact hcons.1 (List.mem_map.2 ⟨x, h2, hx1⟩)

theorem eq_of_mem_of_get (m : GoMap V) (hwf : m.WF) {k : String} {v : V}
    (hget : m.get k = some v) {x : String × V} (hx : x ∈ m.entries) (hk : x.1 = k) :
    x = (k, v) := by
  induction m with
  | nil => simp [entries] at hx
  | cons e m ih =>
    obtain ⟨k', v'⟩ := e
    have hcons : k' ∉ (entries m).map Prod.fst ∧ WF m := by
      simpa [WF, entries, List.nodup_cons] using hwf
    rcases List.mem_cons.1 hx with h1 | h1
    · subst h1
      simp only at hk
      subst hk
      simp only [get, if_true, Option.some.injEq] at hget
      rw [hget]
    · by_cases hk' : k' = k
      · exfalso
        apply hcons.1
        exact List.mem_map.2 ⟨x, h1, hk.trans hk'.symm⟩
      · simp only [get, hk', if_false] at hget
        exact ih hcons.2 hget h1

end GoMap

/-! ## Lemmas on the handlers -/

/-- The two ways connectToPeer can end. -/
theorem connectToPeer_shape (env : Env) (d : Daemon) (p : Peer) :
    ((connectToPeer env d p).1 ≠ none ∧ (connectToPeer env d p).2 = (d, [])) ∨
    ((connectToPeer env d p).1 = none ∧
      d.Config.DisableOutgoingConnections = false ∧
      (SplitAddr p.Addr).2.2 = none ∧
      env.Pool.Addresses.get p.Addr = none ∧
      (connectToPeer env d p).2 =
        ({ d with pendingConnections := d.pendingConnections.set p.Addr p }, [Effect.Dial p])) := by
  unfold connectToPeer
  cases hdis : d.Config.DisableOutgoingConnections with
  | true => simp
  | false =>
    cases hsplit : (SplitAddr p.Addr).2.2 with
    | some e => simp
    | none =>
      cases hpool : env.Pool.Addresses.get p.Addr with
      | some c => simp
      | none => simp

theorem connectToPeer_keeps (env : Env) (d : Daemon) (p : Peer) :
    (connectToPeer env d p).2.1.Config = d.Config ∧
    (connectToPeer env d p).2.1.OutgoingConnections = d.OutgoingConnections ∧
    (connectToPeer env d p).2.1.ExpectingIntroductions = d.ExpectingIntroductions := by
  rcases connectToPeer_shape env d p with ⟨_, h⟩ | ⟨_, _, _, _, h⟩ <;> simp [h]

theorem connectToPeer_disjoint (env : Env) (d : Daemon) (p : Peer)
    (hd : PendingOutgoingDisjoint d) (hc : PoolCoversOutgoing env d) :
    PendingOutgoingDisjoint (connectToPeer env d p).2.1 := by
  rcases connectToPeer_shape env d p with ⟨_, h⟩ | ⟨_, _, _, hpool, h⟩
  · simpa [h] using hd
  · rw [h]
    intro a ⟨hp, ho⟩
    simp only at hp ho
    by_cases hap : a = p.Addr
    · subst hap
      have := hc _ ho
      simp [GoMap.contains, hpool] at this
    · apply hd a
      refine ⟨?_, ho⟩
      simpa [GoMap.contains, GoMap.get_set_other _ _ hap] using hp

theorem connectToPeer_covers (env : Env) (d : Daemon) (p : Peer)
    (hc : PoolCoversOutgoing env d) : PoolCoversOutgoing env (connectToPeer env d p).2.1 := by
  intro a ha
  rw [(connectToPeer_keeps env d p).2.1] at ha
  exact hc a ha

theorem privateLoop_disjoint (env : Env) (ps : List Peer) (acc : Outcome)
    (hd : PendingOutgoingDisjoint acc.1) (hc : PoolCoversOutgoing env acc.1) :
    PendingOutgoingDisjoint (privateLoop env ps acc).1 := by
  induction ps generalizing acc with
  | nil => simpa [privateLoop] using hd
  | cons p ps ih =>
    unfold privateLoop
    split
    · exact ih _ (connectToPeer_disjoint env acc.1 p hd hc) (connectToPeer_covers env acc.1 p hc)
    · exact ih _ hd hc

theorem randomLoop_disjoint (env : Env) (ps : List Peer) (acc : Outcome)
    (hd : PendingOutgoingDisjoint acc.1) (hc : PoolCoversOutgoing env acc.1) :
    PendingOutgoingDisjoint (randomLoop env ps acc).1 := by
  induction ps generalizing acc with
  | nil => simpa [randomLoop] using hd
  | cons p ps ih =>
    unfold randomLoop
    simp only
    split
    · exact connectToPeer_disjoint env acc.1 p hd hc
    · exact ih _ (connectToPeer_disjoint env acc.1 p hd hc) (connectToPeer_covers env acc.1 p hc)

theorem makePrivateConnections_disjoint (env : Env) (d : Daemon)
    (hd : PendingOutgoingDisjoint d) (hc : PoolCoversOutgoing env d) :
    PendingOutgoingDisjoint (makePrivateConnections env d).1 := by
  unfold makePrivateConnections
  split
  · exact hd
  · exact privateLoop_disjoint env _ _ hd hc

theorem connectToRandomPeer_disjoint (env : Env) (d : Daemon)
    (hd : PendingOutgoingDisjoint d) (hc : PoolCoversOutgoing env d) :
    PendingOutgoingDisjoint (connectToRandomPeer env d).1 := by
  unfold connectToRandomPeer
  split
  · exact hd
  · exact randomLoop_disjoint env _ _ hd hc

theorem onConnect_pending (env : Env) (d : Daemon) (c : Connection) (solicited : Bool) :
    (onConnect env d c solicited).1.pendingConnections = d.pendingConnections.delete c.Addr := by
  simp only [onConnect]
  cases hb : env.IsBlacklisted c.Addr <;> cases solicited <;> simp

theorem onConnect_config (env : Env) (d : Daemon) (c : Connection) (solicited : Bool) :
    (onConnect env d c solicited).1.Config = d.Config := by
  simp only [onConnect]
  cases hb : env.IsBlacklisted c.Addr <;> cases solicited <;> simp

theorem onConnect_outgoing (env : Env) (d : Daemon) (c : Connection) (solicited : Bool) :
    (onConnect env d c solicited).1.OutgoingConnections =
      if env.IsBlacklisted c.Addr = false ∧ solicited = true then
        d.OutgoingConnections.set c.Addr c
      else d.OutgoingConnections := by
  simp only [onConnect]
  cases hb : env.IsBlacklisted c.Addr <;> cases solicited <;> simp

theorem onConnect_expecting (env : Env) (d : Daemon) (c : Connection) (solicited : Bool) :
    (onConnect env d c solicited).1.ExpectingIntroductions =
      if env.IsBlacklisted c.Addr = false then d.ExpectingIntroductions.set c.Addr env.Now
      else d.ExpectingIntroductions := by
  simp only [onConnect]
  cases hb : env.IsBlacklisted c.Addr <;> cases solicited <;> simp

theorem onConnect_disjoint (env : Env) (d : Daemon) (c : Connection) (solicited : Bool)
    (hd : PendingOutgoingDisjoint d) : PendingOutgoingDisjoint (onConnect env d c solicited).1 := by
  intro a ⟨hp, ho⟩
  rw [onConnect_pending] at hp
  by_cases hac : a = c.Addr
  · subst hac
    rw [GoMap.contains_delete_self] at hp
    exact absurd hp (by simp)
  · apply hd a
    refine ⟨GoMap.contains_of_contains_delete _ hp, ?_⟩
    rw [onConnect_outgoing] at ho
    split at ho
    · simpa [GoMap.contains, GoMap.get_set_other _ _ hac] using ho
    · exact ho

theorem onGnetDisconnect_disjoint (d : Daemon) (c : Connection) (reason : DisconnectReason)
    (hd : PendingOutgoingDisjoint d) : PendingOutgoingDisjoint (onGnetDisconnect d c reason).1 := by
  intro a ⟨hp, ho⟩
  exact hd a ⟨hp, GoMap.contains_of_contains_delete _ ho⟩

theorem handleConnectionError_disjoint (d : Daemon) (e : ConnectionError)
    (hd : PendingOutgoingDisjoint d) : PendingOutgoingDisjoint (handleConnectionError d e).1 := by
  intro a ⟨hp, ho⟩
  exact hd a ⟨GoMap.contains_of_contains_delete _ hp, ho⟩

theorem cullEntry_keeps (env : Env) (acc : Outcome) (entry : String × Time) :
    (cullEntry env acc entry).1.Config = acc.1.Config ∧
    (cullEntry env acc entry).1.OutgoingConnections = acc.1.OutgoingConnections ∧
    (cullEntry env acc entry).1.pendingConnections = acc.1.pendingConnections := by
  unfold cullEntry
  simp only
  split
  · simp
  · split <;> simp

theorem cullFold_keeps (env : Env) (es : List (String × Time)) (acc : Outcome) :
    (es.foldl (cullEntry env) acc).1.Config = acc.1.Config ∧
    (es.foldl (cullEntry env) acc).1.OutgoingConnections = acc.1.OutgoingConnections ∧
    (es.foldl (cullEntry env) acc).1.pendingConnections = acc.1.pendingConnections := by
  induction es generalizing acc with
  | nil => simp
  | cons e es ih =>
    simp only [List.foldl_cons]
    obtain ⟨h1, h2, h3⟩ := ih (cullEntry env acc e)
    obtain ⟨k1, k2, k3⟩ := cullEntry_keeps env acc e
    exact ⟨h1.trans k1, h2.trans k2, h3.trans k3⟩

theorem cullInvalidConnections_disjoint (env : Env) (d : Daemon)
    (hd : PendingOutgoingDisjoint d) : PendingOutgoingDisjoint (cullInvalidConnections env d).1 := by
  obtain ⟨_, h2, h3⟩ := cullFold_keeps env d.ExpectingIntroductions.entries (d, [])
  intro a
  unfold cullInvalidConnections
  rw [h2, h3]
  exact hd a

theorem step_disjoint (d : Daemon) (e : Event)
    (hd : PendingOutgoingDisjoint d) (hc : e.Covered d) : PendingOutgoingDisjoint (step d e).1 := by
  cases e with
  | connectToPeer env p => exact connectToPeer_disjoint env d p hd hc
  | connectToRandomPeer env => exact connectToRandomPeer_disjoint env d hd hc
  | makePrivateConnections env => exact makePrivateConnections_disjoint env d hd hc
  | onConnect env c solicited => exact onConnect_disjoint env d c solicited hd
  | onGnetDisconnect c reason => exact onGnetDisconnect_disjoint d c reason hd
  | handleConnectionError e => exact handleConnectionError_disjoint d e hd
  | cullInvalidConnections env => exact cullInvalidConnections_disjoint env d hd
  | outgoingConnectionsTicker env =>
    show PendingOutgoingDisjoint (outgoingTick env d).1
    unfold outgoingTick
    split
    · exact connectToRandomPeer_disjoint env d hd hc
    · exact hd
  | privateConnectionsTicker env =>
    show PendingOutgoingDisjoint (privateTick env d).1
    unfold privateTick
    split
    · exact makePrivateConnections_disjoint env d hd hc
    · exact hd
  | cullInvalidTicker env =>
    show PendingOutgoingDisjoint (cullTick env d).1
    unfold cullTick
    split
    · exact cullInvalidConnections_disjoint env d hd
    · exact hd

theorem run_disjoint (d : Daemon) (es : List Event)
    (hd : PendingOutgoingDisjoint d) (hc : RunCovered d es) : PendingOutgoingDisjoint (run d es) := by
  induction es generalizing d with
  | nil => simpa [run] using hd
  | cons e es ih =>
    obtain ⟨h1, h2⟩ := hc
    exact ih _ (step_disjoint d e hd h1) h2

theorem NewDaemon_maps (host : Host) (config : Config) (d0 : Daemon)
    (h : NewDaemon host config = some d0) :
    d0.OutgoingConnections = GoMap.empty ∧ d0.pendingConnections = GoMap.empty ∧
      d0.ExpectingIntroductions = GoMap.empty := by
  unfold NewDaemon at h
  cases hp : config.preprocess host with
  | none => simp [hp] at h
  | some c =>
    simp [hp] at h
    subst h
    simp

theorem randomLoop_caps (env : Env) (ps : List Peer) (acc : Outcome) :
    (randomLoop env ps acc).1.Config = acc.1.Config ∧
    (randomLoop env ps acc).1.OutgoingConnections = acc.1.OutgoingConnections ∧
    (randomLoop env ps acc).1.pendingConnections.len ≤ acc.1.pendingConnections.len + 1 := by
  induction ps generalizing acc with
  | nil => simp [randomLoop]
  | cons p ps ih =>
    unfold randomLoop
    simp only
    rcases connectToPeer_shape env acc.1 p with ⟨herr, h⟩ | ⟨hnil, _, _, _, h⟩
    · rw [if_neg herr]
      have hd : (connectToPeer env acc.1 p).2.1 = acc.1 := by rw [h]
      rw [hd]
      exact ih (acc.1, acc.2 ++ (connectToPeer env acc.1 p).2.2)
    · rw [if_pos hnil]
      have hd : (connectToPeer env acc.1 p).2.1 =
          { acc.1 with pendingConnections := acc.1.pendingConnections.set p.Addr p } := by rw [h]
      refine ⟨?_, ?_, ?_⟩
      · show (connectToPeer env acc.1 p).2.1.Config = acc.1.Config
        rw [hd]
      · show (connectToPeer env acc.1 p).2.1.OutgoingConnections = acc.1.OutgoingConnections
        rw [hd]
      · show (connectToPeer env acc.1 p).2.1.pendingConnections.len ≤ _
        rw [hd]
        exact GoMap.len_set_le _ _ _

theorem connectToPeer_nil_iff (env : Env) (d : Daemon) (p : Peer) :
    (connectToPeer env d p).1 = none ↔
      d.Config.DisableOutgoingConnections = false ∧ (SplitAddr p.Addr).2.2 = none ∧
        env.Pool.Addresses.get p.Addr = none := by
  unfold connectToPeer
  cases hdis : d.Config.DisableOutgoingConnections with
  | true => simp
  | false =>
    cases hsplit : (SplitAddr p.Addr).2.2 with
    | some e => simp
    | none =>
      cases hpool : env.Pool.Addresses.get p.Addr with
      | some c => simp
      | none => simp

theorem randomLoop_all_fail (env : Env) (ps : List Peer) (acc : Outcome)
    (h : ∀ q ∈ ps, (connectToPeer env acc.1 q).1 ≠ none) : randomLoop env ps acc = acc := by
  induction ps with
  | nil => rfl
  | cons p ps ih =>
    unfold randomLoop
    simp only
    have hp := h p (List.mem_cons_self _ _)
    rw [if_neg hp]
    rcases connectToPeer_shape env acc.1 p with ⟨_, hs⟩ | ⟨hnil, _⟩
    · rw [hs]
      simp only [List.append_nil]
      exact ih (fun q hq => h q (List.mem_cons_of_mem _ hq))
    · exact absurd hnil hp

theorem randomLoop_first (env : Env) (pre post : List Peer) (p : Peer) (acc : Outcome)
    (hpre : ∀ q ∈ pre, (connectToPeer env acc.1 q).1 ≠ none)
    (hp : (connectToPeer env acc.1 p).1 = none) :
    randomLoop env (pre ++ p :: post) acc =
      ({ acc.1 with pendingConnections := acc.1.pendingConnections.set p.Addr p },
        acc.2 ++ [Effect.Dial p]) := by
  induction pre with
  | nil =>
    simp only [List.nil_append]
    unfold randomLoop
    simp only
    rw [if_pos hp]
    rcases connectToPeer_shape env acc.1 p with ⟨herr, _⟩ | ⟨_, _, _, _, hs⟩
    · exact absurd hp herr
    · rw [hs]
  | cons q pre ih =>
    simp only [List.cons_append]
    unfold randomLoop
    simp only
    have hq := hpre q (List.mem_cons_self _ _)
    rw [if_neg hq]
    rcases connectToPeer_shape env acc.1 q with ⟨_, hs⟩ | ⟨hnil, _⟩
    · rw [hs]
      simp only [List.append_nil]
      exact ih (fun r hr => hpre r (List.mem_cons_of_mem _ hr))
    · exact absurd hnil hq

theorem randomLoop_calls (env : Env) (ps : List Peer) (acc : Outcome) :
    (randomLoop env ps acc).2.length ≤ acc.2.length + 1 := by
  induction ps with
  | nil => simp [randomLoop]
  | cons p ps ih =>
    unfold randomLoop
    simp only
    rcases connectToPeer_shape env acc.1 p with ⟨herr, hs⟩ | ⟨hnil, _, _, _, hs⟩
    · rw [if_neg herr, hs]
      simpa using ih
    · rw [if_pos hnil, hs]
      simp

theorem privateLoop_eq (env : Env) (ps : List Peer) (acc : Outcome)
    (hen : acc.1.Config.DisableOutgoingConnections = false) :
    privateLoop env ps acc =
      ({ acc.1 with pendingConnections :=
          addPending acc.1.pendingConnections (ps.filter (privateDialable env)) },
        acc.2 ++ (ps.filter (privateDialable env)).map Effect.Dial) := by
  induction ps generalizing acc with
  | nil => simp [privateLoop, addPending]
  | cons p ps ih =>
    unfold privateLoop
    cases hpriv : p.Private with
    | false =>
      have hnd : privateDialable env p = false := by simp [privateDialable, hpriv]
      simp only [Bool.false_eq_true, if_false, List.filter_cons, hnd]
      exact ih acc hen
    | true =>
      simp only [if_true]
      rcases connectToPeer_shape env acc.1 p with ⟨herr, hs⟩ | ⟨_, _, hsplit, hpool, hs⟩
      · have hnd : privateDialable env p = false := by
          have hn := mt (connectToPeer_nil_iff env acc.1 p).2 herr
          simp only [hen, true_and, not_and] at hn
          cases hsp : (SplitAddr p.Addr).2.2 with
          | some e => simp [privateDialable, hsp]
          | none =>
            have := hn hsp
            cases hpl : env.Pool.Addresses.get p.Addr with
            | none => exact absurd hpl this
            | some c => simp [privateDialable, hpl]
        rw [hs]
        simp only [List.append_nil, List.filter_cons, hnd, Bool.false_eq_true, if_false]
        exact ih acc hen
      · have hd : privateDialable env p = true := by
          simp [privateDialable, hpriv, hsplit, hpool]
        rw [hs]
        simp only [List.filter_cons, hd, if_true, List.map_cons]
        refine (ih ({ acc.1 with pendingConnections := acc.1.pendingConnections.set p.Addr p },
          acc.2 ++ [Effect.Dial p]) hen).trans ?_
        simp [addPending, List.append_assoc]

theorem GoMap.len_delete_le {V : Type} (m : GoMap V) (k : String) :
    (m.delete k).len ≤ m.len := by
  have h : List.length (m.delete k) ≤ List.length m := by
    induction m with
    | nil => simp [GoMap.delete]
    | cons e m ih =>
      obtain ⟨k', v'⟩ := e
      by_cases h : k' = k
      · simp only [GoMap.delete, h, if_true, List.length_cons]
        omega
      · simp only [GoMap.delete, h, if_false, List.length_cons]
        omega
  unfold GoMap.len
  exact_mod_cast h

theorem randomLoop_outcome (env : Env) (ps : List Peer) (acc : Outcome) :
    randomLoop env ps acc = acc ∨
      ∃ p ∈ ps, randomLoop env ps acc =
        ({ acc.1 with pendingConnections := acc.1.pendingConnections.set p.Addr p },
          acc.2 ++ [Effect.Dial p]) := by
  induction ps with
  | nil => exact Or.inl rfl
  | cons q ps ih =>
    unfold randomLoop
    simp only
    rcases connectToPeer_shape env acc.1 q with ⟨herr, hs⟩ | ⟨hnil, _, _, _, hs⟩
    · rw [if_neg herr, hs]
      simp only [List.append_nil]
      rcases ih with h | ⟨p, hp, h⟩
      · exact Or.inl h
      · exact Or.inr ⟨p, List.mem_cons_of_mem _ hp, h⟩
    · rw [if_pos hnil, hs]
      exact Or.inr ⟨q, List.mem_cons_self _ _, rfl⟩

theorem outgoingTick_closed (env : Env) (d : Daemon) (h : ¬ OutgoingGuard d) :
    outgoingTick env d = (d, []) := by
  unfold outgoingTick
  split
  · rename_i hg
    simp only [Bool.and_eq_true, Bool.not_eq_true', decide_eq_true_eq] at hg
    exact absurd ⟨hg.1.1, hg.1.2, hg.2⟩ h
  · rfl

theorem outgoingTick_open (env : Env) (d : Daemon) (h : OutgoingGuard d) :
    outgoingTick env d = connectToRandomPeer env d := by
  unfold outgoingTick
  split
  · rfl
  · rename_i hg
    simp only [Bool.and_eq_true, Bool.not_eq_true', decide_eq_true_eq] at hg
    exact absurd ⟨⟨h.1, h.2.1⟩, h.2.2⟩ hg

theorem outgoingTick_outcome (env : Env) (d : Daemon) :
    outgoingTick env d = (d, []) ∨
      ∃ p ∈ env.RandomPublic, OutgoingGuard d ∧ outgoingTick env d =
        ({ d with pendingConnections := d.pendingConnections.set p.Addr p },
          [Effect.Dial p]) := by
  by_cases hg : OutgoingGuard d
  · rw [outgoingTick_open env d hg]
    unfold connectToRandomPeer
    rw [if_neg (by simp [hg.1])]
    rcases randomLoop_outcome env env.RandomPublic (d, []) with h | ⟨p, hp, h⟩
    · exact Or.inl h
    · exact Or.inr ⟨p, hp, hg, by simpa using h⟩
  · exact Or.inl (outgoingTick_closed env d hg)

theorem outgoingTick_pending_cap (env : Env) (d : Daemon)
    (h : d.pendingConnections.len ≤ d.Config.PendingMax) :
    (outgoingTick env d).1.pendingConnections.len ≤ (outgoingTick env d).1.Config.PendingMax := by
  rcases outgoingTick_outcome env d with h0 | ⟨p, _, hg, h1⟩
  · rw [h0]
    exact h
  · rw [h1]
    have := GoMap.len_set_le d.pendingConnections p.Addr p
    have hlt := hg.2.2
    show (d.pendingConnections.set p.Addr p).len ≤ d.Config.PendingMax
    omega

theorem step_pending_cap (d : Daemon) (e : Event) (hc : e.dialsUnderCaps = true)
    (h : d.pendingConnections.len ≤ d.Config.PendingMax) :
    (step d e).1.pendingConnections.len ≤ (step d e).1.Config.PendingMax := by
  cases e with
  | connectToPeer env p => simp [Event.dialsUnderCaps] at hc
  | connectToRandomPeer env => simp [Event.dialsUnderCaps] at hc
  | makePrivateConnections env => simp [Event.dialsUnderCaps] at hc
  | privateConnectionsTicker env => simp [Event.dialsUnderCaps] at hc
  | onConnect env c solicited =>
    show (onConnect env d c solicited).1.pendingConnections.len ≤
      (onConnect env d c solicited).1.Config.PendingMax
    rw [onConnect_pending, onConnect_config]
    have := GoMap.len_delete_le d.pendingConnections c.Addr
    omega
  | onGnetDisconnect c reason => exact h
  | handleConnectionError e =>
    show (d.pendingConnections.delete e.Addr).len ≤ d.Config.PendingMax
    have := GoMap.len_delete_le d.pendingConnections e.Addr
    omega
  | cullInvalidConnections env =>
    show (cullInvalidConnections env d).1.pendingConnections.len ≤
      (cullInvalidConnections env d).1.Config.PendingMax
    obtain ⟨h1, _, h3⟩ := cullFold_keeps env d.ExpectingIntroductions.entries (d, [])
    unfold cullInvalidConnections
    rw [h1, h3]
    exact h
  | outgoingConnectionsTicker env => exact outgoingTick_pending_cap env d h
  | cullInvalidTicker env =>
    show (cullTick env d).1.pendingConnections.len ≤ (cullTick env d).1.Config.PendingMax
    unfold cullTick
    split
    · obtain ⟨h1, _, h3⟩ := cullFold_keeps env d.ExpectingIntroductions.entries (d, [])
      unfold cullInvalidConnections
      rw [h1, h3]
      exact h
    · exact h

theorem run_pending_cap (d : Daemon) (es : List Event)
    (hes : es.all Event.dialsUnderCaps = true)
    (h : d.pendingConnections.len ≤ d.Config.PendingMax) :
    (run d es).pendingConnections.len ≤ (run d es).Config.PendingMax := by
  induction es generalizing d with
  | nil => exact h
  | cons e es ih =>
    simp only [List.all_cons, Bool.and_eq_true] at hes
    exact ih _ hes.2 (step_pending_cap d e hes.1 h)

/-! ## Lemmas on the cull sweep -/

theorem cullEntry_eq (env : Env) (acc : Outcome) (e : String × Time) :
    cullEntry env acc e =
      ({ acc.1 with ExpectingIntroductions :=
          if cullDrops env acc.1.Config.IntroductionWait e then
            acc.1.ExpectingIntroductions.delete e.1
          else acc.1.ExpectingIntroductions },
        acc.2 ++ cullCalls env acc.1.Config.IntroductionWait e) := by
  unfold cullEntry cullDrops cullCalls
  simp only
  cases env.Pool.Addresses.get e.1 with
  | none => simp
  | some c =>
    by_cases ht : e.2 + acc.1.Config.IntroductionWait < env.Now
    · simp [ht]
    · simp [ht]

theorem cullFold_eq (env : Env) (es : List (String × Time)) (acc : Outcome) :
    es.foldl (cullEntry env) acc =
      ({ acc.1 with ExpectingIntroductions :=
          (sweep env acc.1.Config.IntroductionWait es acc.1.ExpectingIntroductions) },
        acc.2 ++ es.flatMap (cullCalls env acc.1.Config.IntroductionWait)) := by
  induction es generalizing acc with
  | nil => simp [sweep]
  | cons e es ih =>
    rw [List.foldl_cons, ih, cullEntry_eq]
    simp [sweep, List.flatMap_cons, List.append_assoc]

theorem cull_eq (env : Env) (d : Daemon) :
    cullInvalidConnections env d =
      ({ d with ExpectingIntroductions :=
          (sweep env d.Config.IntroductionWait d.ExpectingIntroductions.entries
            d.ExpectingIntroductions) },
        d.ExpectingIntroductions.entries.flatMap (cullCalls env d.Config.IntroductionWait)) := by
  unfold cullInvalidConnections
  rw [cullFold_eq]
  simp

theorem sweep_get (env : Env) (wait : Duration) (es : List (String × Time)) (m : GoMap Time)
    (a : String) :
    (sweep env wait es m).get a =
      if es.any (fun e => decide (e.1 = a) && cullDrops env wait e) then none else m.get a := by
  induction es generalizing m with
  | nil => simp [sweep]
  | cons e es ih =>
    have hstep : sweep env wait (e :: es) m =
        sweep env wait es (if cullDrops env wait e then m.delete e.1 else m) := by
      simp [sweep]
    rw [hstep, ih]
    by_cases hrest : es.any (fun e => decide (e.1 = a) && cullDrops env wait e) = true
    · simp [hrest]
    · simp only [hrest, Bool.false_eq_true, if_false, List.any_cons, Bool.or_false]
      by_cases hd : cullDrops env wait e = true
      · by_cases hk : e.1 = a
        · subst hk
          simp [hd, GoMap.get_delete_self]
        · have hak : a ≠ e.1 := fun h => hk h.symm
          simp [hd, hk, GoMap.get_delete_other _ hak]
      · simp [hd]

theorem sweep_sub (env : Env) (wait : Duration) (es : List (String × Time)) (m : GoMap Time)
    {x : String × Time} (hx : x ∈ (sweep env wait es m).entries) : x ∈ m.entries := by
  induction es generalizing m with
  | nil => simpa [sweep] using hx
  | cons e es ih =>
    have hstep : sweep env wait (e :: es) m =
        sweep env wait es (if cullDrops env wait e then m.delete e.1 else m) := by
      simp [sweep]
    rw [hstep] at hx
    have h1 := ih _ hx
    split at h1
    · exact (GoMap.mem_delete m h1).1
    · exact h1

theorem sweep_no_dropped (env : Env) (wait : Duration) (es : List (String × Time))
    (m : GoMap Time) {e x : String × Time} (he : e ∈ es) (hd : cullDrops env wait e = true)
    (hx : x ∈ (sweep env wait es m).entries) : x.1 ≠ e.1 := by
  induction es generalizing m with
  | nil => simp at he
  | cons e' es ih =>
    have hstep : sweep env wait (e' :: es) m =
        sweep env wait es (if cullDrops env wait e' then m.delete e'.1 else m) := by
      simp [sweep]
    rw [hstep] at hx
    rcases List.mem_cons.1 he with h1 | h1
    · subst h1
      have h2 := sweep_sub env wait es _ hx
      rw [if_pos hd] at h2
      exact (GoMap.mem_delete m h2).2
    · exact ih _ h1 hx

theorem sweep_WF (env : Env) (wait : Duration) (es : List (String × Time)) (m : GoMap Time)
    (h : m.WF) : (sweep env wait es m).WF := by
  induction es generalizing m with
  | nil => simpa [sweep] using h
  | cons e es ih =>
    have hstep : sweep env wait (e :: es) m =
        sweep env wait es (if cullDrops env wait e then m.delete e.1 else m) := by
      simp [sweep]
    rw [hstep]
    apply ih
    split
    · exact GoMap.WF_delete m _ h
    · exact h

theorem cullFold_kept (env : Env) (es : List (String × Time)) (acc : Outcome)
    (h : ∀ e ∈ es, cullDrops env acc.1.Config.IntroductionWait e = false) :
    es.foldl (cullEntry env) acc = acc := by
  induction es with
  | nil => rfl
  | cons e es ih =>
    have he := h e (List.mem_cons_self _ _)
    have hstep : cullEntry env acc e = acc := by
      rw [cullEntry_eq]
      have hc : cullCalls env acc.1.Config.IntroductionWait e = [] := by
        unfold cullDrops at he
        unfold cullCalls
        cases hp : env.Pool.Addresses.get e.1 with
        | none => rfl
        | some c =>
          simp only [hp, decide_eq_false_iff_not] at he
          simp [he]
      rw [hc, he]
      simp
    rw [List.foldl_cons, hstep]
    exact ih (fun e' he' => h e' (List.mem_cons_of_mem _ he'))

theorem mem_cullCalls_remove (env : Env) (wait : Duration) (e : String × Time) (b : String) :
    Effect.RemovePeer b ∈ cullCalls env wait e ↔
      e.1 = b ∧ env.Pool.Addresses.get e.1 ≠ none ∧ e.2 + wait < env.Now := by
  unfold cullCalls
  cases hp : env.Pool.Addresses.get e.1 with
  | none => simp
  | some c =>
    by_cases ht : e.2 + wait < env.Now
    · simp [ht, eq_comm]
    · simp [ht]

theorem mem_cullCalls_disconnect (env : Env) (wait : Duration) (e : String × Time)
    (c : Connection) (r : DisconnectReason) :
    Effect.Disconnect c r ∈ cullCalls env wait e ↔
      env.Pool.Addresses.get e.1 = some c ∧ e.2 + wait < env.Now ∧
        r = DisconnectIntroductionTimeout := by
  unfold cullCalls
  cases hp : env.Pool.Addresses.get e.1 with
  | none => simp
  | some c' =>
    by_cases ht : e.2 + wait < env.Now
    · simp [ht, eq_comm]
    · simp [ht]

theorem privateLoop_expecting (env : Env) (ps : List Peer) (acc : Outcome) :
    (privateLoop env ps acc).1.ExpectingIntroductions = acc.1.ExpectingIntroductions := by
  induction ps generalizing acc with
  | nil => rfl
  | cons p ps ih =>
    unfold privateLoop
    split
    · exact (ih _).trans (connectToPeer_keeps env acc.1 p).2.2
    · exact ih acc

theorem randomLoop_expecting (env : Env) (ps : List Peer) (acc : Outcome) :
    (randomLoop env ps acc).1.ExpectingIntroductions = acc.1.ExpectingIntroductions := by
  induction ps generalizing acc with
  | nil => rfl
  | cons p ps ih =>
    unfold randomLoop
    simp only
    split
    · exact (connectToPeer_keeps env acc.1 p).2.2
    · exact (ih _).trans (connectToPeer_keeps env acc.1 p).2.2

theorem step_expecting_WF (d : Daemon) (e : Event) (h : d.ExpectingIntroductions.WF) :
    (step d e).1.ExpectingIntroductions.WF := by
  cases e with
  | connectToPeer env p =>
    show (connectToPeer env d p).2.1.ExpectingIntroductions.WF
    rw [(connectToPeer_keeps env d p).2.2]
    exact h
  | connectToRandomPeer env =>
    show (connectToRandomPeer env d).1.ExpectingIntroductions.WF
    unfold connectToRandomPeer
    split
    · exact h
    · rw [randomLoop_expecting]
      exact h
  | makePrivateConnections env =>
    show (makePrivateConnections env d).1.ExpectingIntroductions.WF
    unfold makePrivateConnections
    split
    · exact h
    · rw [privateLoop_expecting]
      exact h
  | onConnect env c solicited =>
    show (onConnect env d c solicited).1.ExpectingIntroductions.WF
    rw [onConnect_expecting]
    split
    · exact GoMap.WF_set _ _ _ h
    · exact h
  | onGnetDisconnect c reason => exact GoMap.WF_delete _ _ h
  | handleConnectionError e => exact h
  | cullInvalidConnections env =>
    show (cullInvalidConnections env d).1.ExpectingIntroductions.WF
    rw [cull_eq]
    exact sweep_WF env _ _ _ h
  | outgoingConnectionsTicker env =>
    show (outgoingTick env d).1.ExpectingIntroductions.WF
    unfold outgoingTick connectToRandomPeer
    split
    · split
      · exact h
      · rw [randomLoop_expecting]
        exact h
    · exact h
  | privateConnectionsTicker env =>
    show (privateTick env d).1.ExpectingIntroductions.WF
    unfold privateTick makePrivateConnections
    split
    · split
      · exact h
      · rw [privateLoop_expecting]
        exact h
    · exact h
  | cullInvalidTicker env =>
    show (cullTick env d).1.ExpectingIntroductions.WF
    unfold cullTick
    split
    · rw [cull_eq]
      exact sweep_WF env _ _ _ h
    · exact h

/-- Every state reached from a freshly constructed daemon keeps the keys of
ExpectingIntroductions pairwise distinct. -/
theorem run_expecting_WF (host : Host) (config : Config) (d0 : Daemon) (es : List Event)
    (hnew : NewDaemon host config = some d0) : (run d0 es).ExpectingIntroductions.WF := by
  have h0 : d0.ExpectingIntroductions.WF := by
    rw [(NewDaemon_maps host config d0 hnew).2.2]
    exact GoMap.WF_empty
  clear hnew
  induction es generalizing d0 with
  | nil => exact h0
  | cons e es ih => exact ih _ (step_expecting_WF d0 e h0)

/-! ## Lemmas on address parsing -/

theorem splitOn_ne_nil (sep : Char) (l : List Char) : splitOn sep l ≠ [] := by
  cases l with
  | nil => simp [splitOn]
  | cons c cs =>
    unfold splitOn
    split
    · simp
    · split <;> simp

theorem splitOn_of_not_mem (sep : Char) (l : List Char) (h : sep ∉ l) : splitOn sep l = [l] := by
  induction l with
  | nil => rfl
  | cons c cs ih =>
    have hc : c ≠ sep := fun hc => h (hc ▸ List.mem_cons_self _ _)
    have hcs : sep ∉ cs := fun hm => h (List.mem_cons_of_mem _ hm)
    unfold splitOn
    rw [if_neg hc, ih hcs]

theorem splitOn_cons_sep (sep : Char) (cs : List Char) :
    splitOn sep (sep :: cs) = [] :: splitOn sep cs := by
  rw [splitOn]
  simp

theorem splitOn_cons_ne (sep c : Char) (cs : List Char) (hc : c ≠ sep) :
    splitOn sep (c :: cs) =
      (c :: (splitOn sep cs).headD []) :: (splitOn sep cs).tail := by
  rw [splitOn, if_neg hc]
  cases h : splitOn sep cs with
  | nil => exact absurd h (splitOn_ne_nil sep cs)
  | cons p ps => rfl

theorem splitOn_append (sep : Char) (h rest : List Char) (hh : sep ∉ h) :
    splitOn sep (h ++ sep :: rest) = h :: splitOn sep rest := by
  induction h with
  | nil => exact splitOn_cons_sep sep rest
  | cons c cs ih =>
    have hc : c ≠ sep := fun hc => hh (hc ▸ List.mem_cons_self _ _)
    have hcs : sep ∉ cs := fun hm => hh (List.mem_cons_of_mem _ hm)
    rw [List.cons_append, splitOn_cons_ne sep c _ hc, ih hcs]
    rfl

theorem splitOn_length (sep : Char) (l : List Char) :
    (splitOn sep l).length = l.count sep + 1 := by
  induction l with
  | nil => rfl
  | cons c cs ih =>
    by_cases hc : c = sep
    · subst hc
      rw [splitOn_cons_sep]
      simp [ih]
    · rw [splitOn_cons_ne sep c cs hc]
      have hne := splitOn_ne_nil sep cs
      have hlen : (splitOn sep cs).tail.length + 1 = (splitOn sep cs).length := by
        cases h : splitOn sep cs with
        | nil => exact absurd h hne
        | cons p ps => simp
      rw [List.length_cons, hlen, ih, List.count_cons_of_ne (Ne.symm hc)]

theorem split_at_first (sep : Char) (l : List Char) (h : sep ∈ l) :
    l = l.takeWhile (fun ch => ch != sep) ++
      sep :: (l.dropWhile (fun ch => ch != sep)).drop 1 := by
  induction l with
  | nil => simp at h
  | cons c cs ih =>
    by_cases hc : c = sep
    · subst hc
      simp
    · have hcs : sep ∈ cs := by
        rcases List.mem_cons.1 h with h1 | h1
        · exact absurd h1.symm hc
        · exact h1
      have hb : (c != sep) = true := by simpa using hc
      rw [List.takeWhile_cons, List.dropWhile_cons, hb]
      simp only [if_true, List.cons_append]
      exact congrArg (List.cons c) (ih hcs)

theorem takeWhile_no_sep (sep : Char) (l : List Char) :
    sep ∉ l.takeWhile (fun ch => ch != sep) := by
  intro hm
  have := List.mem_takeWhile_imp hm
  simp at this

theorem digitChar_digit (k : Nat) (hk : k < 10) :
    (Nat.digitChar k).isDigit = true ∧ (Nat.digitChar k).toNat - 48 = k := by
  interval_cases k <;> exact ⟨by decide, by decide⟩

theorem digitsValue_cons (c : Char) (cs : List Char) (acc : Nat) :
    List.foldl (fun acc c => acc * 10 + (c.toNat - 48)) acc (c :: cs) =
      List.foldl (fun acc c => acc * 10 + (c.toNat - 48)) (acc * 10 + (c.toNat - 48)) cs := rfl

theorem toDigitsCore_spec (fuel : Nat) : ∀ (n : Nat) (ds : List Char), n < fuel →
    (ds.all Char.isDigit = true → (Nat.toDigitsCore 10 fuel n ds).all Char.isDigit = true) ∧
    Nat.toDigitsCore 10 fuel n ds ≠ [] ∧
    List.foldl (fun acc c => acc * 10 + (c.toNat - 48)) 0 (Nat.toDigitsCore 10 fuel n ds) =
      List.foldl (fun acc c => acc * 10 + (c.toNat - 48)) n ds := by
  induction fuel with
  | zero => intro n ds h; omega
  | succ fuel ih =>
    intro n ds hn
    have hd := digitChar_digit (n % 10) (Nat.mod_lt _ (by decide))
    simp only [Nat.toDigitsCore]
    by_cases h0 : n / 10 = 0
    · rw [if_pos h0]
      refine ⟨?_, by simp, ?_⟩
      · intro hds
        simp only [List.all_cons, hd.1, hds, Bool.and_self]
      · rw [digitsValue_cons, hd.2]
        have : n % 10 = n := Nat.mod_eq_of_lt (by omega)
        simp [this]
    · rw [if_neg h0]
      have hlt : n / 10 < fuel := by omega
      obtain ⟨h1, h2, h3⟩ := ih (n / 10) (Nat.digitChar (n % 10) :: ds) hlt
      refine ⟨?_, h2, ?_⟩
      · intro hds
        apply h1
        simp only [List.all_cons, hd.1, hds, Bool.and_self]
      · rw [h3, digitsValue_cons, hd.2]
        have : n / 10 * 10 + n % 10 = n := by omega
        rw [this]

theorem toDigits_spec (n : Nat) :
    (Nat.toDigits 10 n).all Char.isDigit = true ∧ Nat.toDigits 10 n ≠ [] ∧
      digitsValue (Nat.toDigits 10 n) = n := by
  obtain ⟨h1, h2, h3⟩ := toDigitsCore_spec (n + 1) n [] (Nat.lt_succ_self n)
  exact ⟨h1 rfl, h2, by simpa [digitsValue, Nat.toDigits] using h3⟩

theorem ParseUint16_toDigits (n : Nat) (hn : n ≤ 65535) :
    ParseUint16 (Nat.toDigits 10 n) = some n := by
  obtain ⟨h1, h2, h3⟩ := toDigits_spec n
  unfold ParseUint16
  rw [if_neg h2, if_pos h1, h3, if_pos hn]

theorem colon_not_mem_digits (l : List Char) (h : l.all Char.isDigit = true) : ':' ∉ l := by
  intro hm
  have := List.all_eq_true.1 h ':' hm
  exact absurd this (by decide)

theorem splitOn_one_colon (l : List Char) (h : l.count ':' = 1) :
    splitOn ':' l =
      [l.takeWhile (fun ch => ch != ':'), (l.dropWhile (fun ch => ch != ':')).drop 1] := by
  have hmem : ':' ∈ l := List.count_pos_iff.1 (by omega)
  have hsplit := split_at_first ':' l hmem
  have hsp : splitOn ':' l =
      l.takeWhile (fun ch => ch != ':') ::
        splitOn ':' ((l.dropWhile (fun ch => ch != ':')).drop 1) := by
    conv_lhs => rw [hsplit]
    exact splitOn_append ':' _ _ (takeWhile_no_sep ':' l)
  have hlen := splitOn_length ':' l
  rw [hsp, List.length_cons, splitOn_length, h] at hlen
  have hrest : ':' ∉ (l.dropWhile (fun ch => ch != ':')).drop 1 := by
    intro hm
    have := List.count_pos_iff.2 hm
    omega
  rw [hsp, splitOn_of_not_mem ':' _ hrest]

theorem SplitAddr_eq (s : String) :
    SplitAddr s =
      if s.data.count ':' = 1 then
        match ParseUint16 (afterColon s) with
        | none => (String.mk (beforeColon s), 0, some (SplitAddrError.InvalidPort s))
        | some port64 => (String.mk (beforeColon s), port64 % 65536, none)
      else
        (String.mk ((splitOn ':' s.data).headD []), 0, some (SplitAddrError.InvalidAddr s)) := by
  unfold SplitAddr
  simp only
  by_cases h : s.data.count ':' = 1
  · rw [if_pos h, splitOn_one_colon s.data h]
    simp only [List.length_cons, List.length_nil, ne_eq, not_true_eq_false, if_false]
    rfl
  · rw [if_neg h]
    have hlen : (splitOn ':' s.data).length ≠ 2 := by
      rw [splitOn_length]
      omega
    rw [if_pos hlen]

theorem ParseUint16_eq_some_iff (l : List Char) (v : Nat) :
    ParseUint16 l = some v ↔
      l ≠ [] ∧ l.all Char.isDigit = true ∧ digitsValue l ≤ 65535 ∧ v = digitsValue l := by
  unfold ParseUint16
  by_cases h1 : l = []
  · simp [h1]
  · by_cases h2 : l.all Char.isDigit = true
    · by_cases h3 : digitsValue l ≤ 65535
      · rw [if_neg h1, if_pos h2, if_pos h3]
        simp only [Option.some.injEq]
        constructor
        · intro h
          exact ⟨h1, h2, h3, h.symm⟩
        · intro h
          exact h.2.2.2.symm
      · rw [if_neg h1, if_pos h2, if_neg h3]
        simp [h3]
    · rw [if_neg h1, if_neg h2]
      constructor
      · intro h
        exact absurd h (by simp)
      · intro h
        exact absurd h.2.1 h2

/-! ## Lemmas on the loopback lookup -/

theorem firstLoopback_none (aa : List NetAddr) (h : firstLoopback aa = none) :
    ∀ x ∈ aa, ∀ ip' : String, x ≠ NetAddr.IPNet ip' true := by
  induction aa with
  | nil => intro x hx; simp at hx
  | cons a aa ih =>
    intro x hx ip'
    cases a with
    | Other =>
      simp only [firstLoopback] at h
      rcases List.mem_cons.1 hx with h1 | h1
      · rw [h1]
        simp
      · exact ih h x h1 ip'
    | IPNet ip b =>
      cases b with
      | true => simp [firstLoopback] at h
      | false =>
        simp only [firstLoopback] at h
        rcases List.mem_cons.1 hx with h1 | h1
        · rw [h1]
          simp
        · exact ih h x h1 ip'

theorem firstLoopback_some (aa : List NetAddr) (ip : String) (h : firstLoopback aa = some ip) :
    ∃ aa1 aa2 : List NetAddr, aa = aa1 ++ NetAddr.IPNet ip true :: aa2 ∧
      ∀ x ∈ aa1, ∀ ip' : String, x ≠ NetAddr.IPNet ip' true := by
  induction aa with
  | nil => simp [firstLoopback] at h
  | cons a aa ih =>
    cases a with
    | Other =>
      simp only [firstLoopback] at h
      obtain ⟨aa1, aa2, heq, hno⟩ := ih h
      refine ⟨NetAddr.Other :: aa1, aa2, by rw [heq]; rfl, ?_⟩
      intro x hx ip'
      rcases List.mem_cons.1 hx with h1 | h1
      · rw [h1]
        simp
      · exact hno x h1 ip'
    | IPNet ip0 b =>
      cases b with
      | true =>
        simp only [firstLoopback, Option.some.injEq] at h
        subst h
        exact ⟨[], aa, rfl, by intro x hx; simp at hx⟩
      | false =>
        simp only [firstLoopback] at h
        obtain ⟨aa1, aa2, heq, hno⟩ := ih h
        refine ⟨NetAddr.IPNet ip0 false :: aa1, aa2, by rw [heq]; rfl, ?_⟩
        intro x hx ip'
        rcases List.mem_cons.1 hx with h1 | h1
        · rw [h1]
          simp
        · exact hno x h1 ip'

theorem localhostLoop_ok (tt : List NetInterface) (ip : String)
    (h : localhostLoop tt = .ok ip) :
    ∃ (pre post : List NetInterface) (t : NetInterface) (aa1 aa2 : List NetAddr),
      tt = pre ++ t :: post ∧
      (∀ u ∈ pre, ∃ bb : List NetAddr, u.Addrs = .ok bb ∧
        ∀ x ∈ bb, ∀ ip' : String, x ≠ NetAddr.IPNet ip' true) ∧
      t.Addrs = .ok (aa1 ++ NetAddr.IPNet ip true :: aa2) ∧
      (∀ x ∈ aa1, ∀ ip' : String, x ≠ NetAddr.IPNet ip' true) := by
  induction tt with
  | nil => simp [localhostLoop] at h
  | cons t tt ih =>
    unfold localhostLoop at h
    cases ha : t.Addrs with
    | error err => simp [ha] at h
    | ok aa =>
      simp only [ha] at h
      cases hf : firstLoopback aa with
      | some ip0 =>
        simp only [hf, Except.ok.injEq] at h
        subst h
        obtain ⟨aa1, aa2, heq, hno⟩ := firstLoopback_some aa ip0 hf
        exact ⟨[], tt, t, aa1, aa2, rfl, by intro u hu; simp at hu, by rw [ha, heq], hno⟩
      | none =>
        simp only [hf] at h
        obtain ⟨pre, post, t', aa1, aa2, heq, hpre, ht, hno⟩ := ih h
        refine ⟨t :: pre, post, t', aa1, aa2, by rw [heq]; rfl, ?_, ht, hno⟩
        intro u hu
        rcases List.mem_cons.1 hu with h1 | h1
        · rw [h1]
          exact ⟨aa, ha, firstLoopback_none aa hf⟩
        · exact hpre u h1

theorem LocalhostIP_ok (host : Host) (ip : String) (h : LocalhostIP host = .ok ip) :
    FirstLoopback host ip := by
  unfold LocalhostIP at h
  cases hi : host.Interfaces with
  | error err => simp [hi] at h
  | ok tt =>
    simp only [hi] at h
    obtain ⟨pre, post, t, aa1, aa2, heq, hpre, ht, hno⟩ := localhostLoop_ok tt ip h
    exact ⟨pre, post, t, aa1, aa2, by rw [hi, heq], hpre, ht, hno⟩

/-! ## Claims -/

/-- Claim C1, as stated, fails: from the daemon built with the default
configuration, onConnect for a solicited connection to 10.0.0.5:6677 followed
by connectToPeer for the same address, the transport map being empty both
times, leaves that address a key of both pendingConnections and
OutgoingConnections. -/
theorem c1_pending_and_outgoing_overlap :
    (NewDaemon sampleHost sampleConfig).map (fun d0 =>
      ((run d0 [Event.onConnect (envWith GoMap.empty [] 100) connA true,
                Event.connectToPeer (envWith GoMap.empty [] 200) peerA]).pendingConnections.contains addrA,
       (run d0 [Event.onConnect (envWith GoMap.empty [] 100) connA true,
                Event.connectToPeer (envWith GoMap.empty [] 200) peerA]).OutgoingConnections.contains addrA))
      = some (true, true) := by
  decide

/-- Claim C1, amended: from a freshly constructed daemon, after any finite
sequence of handlers in which every dialing handler (connectToPeer,
connectToRandomPeer, makePrivateConnections and the two ticks that call them)
finds a live transport connection for every key of OutgoingConnections, no
address is a key of both pendingConnections and OutgoingConnections. -/
theorem c1_disjoint_when_pool_covers_outgoing (host : Host) (config : Config) (d0 : Daemon)
    (es : List Event) (hnew : NewDaemon host config = some d0) (hcov : RunCovered d0 es) :
    PendingOutgoingDisjoint (run d0 es) := by
  apply run_disjoint d0 es _ hcov
  obtain ⟨h1, h2, _⟩ := NewDaemon_maps host config d0 hnew
  intro a ⟨hp, _⟩
  rw [h2] at hp
  simp [GoMap.contains, GoMap.empty, GoMap.get] at hp

/-- Witness for C1 amended: connect to addrA, then dial addrA (refused, it is
live) and addrB (dialed) with the transport holding the connection to
addrA. -/
theorem c1_disjoint_when_pool_covers_outgoing_witness :
    NewDaemon sampleHost sampleConfig = some freshDaemon ∧
      RunCovered freshDaemon coveredTrace ∧
      PendingOutgoingDisjoint (run freshDaemon coveredTrace) :=
  have hnew : NewDaemon sampleHost sampleConfig = some freshDaemon := rfl
  have hcov : RunCovered freshDaemon coveredTrace :=
    ⟨trivial, fun _ h => h, fun _ h => h, trivial⟩
  ⟨hnew, hcov,
    c1_disjoint_when_pool_covers_outgoing sampleHost sampleConfig freshDaemon coveredTrace
      hnew hcov⟩

/-- Claim C2, as stated, fails, for each of the two bounds, on the daemon
built with the default configuration (OutgoingMax 8, PendingMax 16). Nine
outgoing-connect ticks start nine dials, all under both caps, and the nine
solicited onConnect calls that follow leave nine entries in
OutgoingConnections, before and after the next outgoing-connect tick. One
private-connect tick over seventeen private peers leaves seventeen pending
dials, before and after the next outgoing-connect tick. -/
theorem c2_caps_exceeded_in_reachable_states :
    (NewDaemon sampleHost sampleConfig).map (fun d0 =>
      ((run d0 nineDialsSucceed).Config.OutgoingMax,
       (run d0 nineDialsSucceed).OutgoingConnections.len,
       (run d0 (nineDialsSucceed ++
          [Event.outgoingConnectionsTicker (envWith GoMap.empty [peerA] 300)])
        ).OutgoingConnections.len))
      = some (8, 9, 9) ∧
    (NewDaemon sampleHost sampleConfig).map (fun d0 =>
      ((run d0 [Event.privateConnectionsTicker
          (envWith GoMap.empty seventeenPrivatePeers 100)]).Config.PendingMax,
       (run d0 [Event.privateConnectionsTicker
          (envWith GoMap.empty seventeenPrivatePeers 100)]).pendingConnections.len,
       (run d0 [Event.privateConnectionsTicker (envWith GoMap.empty seventeenPrivatePeers 100),
          Event.outgoingConnectionsTicker
            (envWith GoMap.empty seventeenPrivatePeers 200)]).pendingConnections.len))
      = some (16, 17, 17) := by
  constructor <;> decide

/-- Claim C2, amended. In every state reachable from a freshly constructed
daemon with PendingMax >= 0 by outgoing-connect ticks, onConnect,
onGnetDisconnect, handleConnectionError and cull sweeps,
len(pendingConnections) <= PendingMax holds, hence immediately before and
after every run of the outgoing-connect handler. The handler does nothing
unless outgoing connections are enabled, len(OutgoingConnections) <
OutgoingMax and len(pendingConnections) < PendingMax; under that guard it is
connectToRandomPeer; in every case it leaves the configuration,
OutgoingConnections and ExpectingIntroductions unchanged and either changes
nothing or, the guard holding, adds one pending entry for a peer of the list
with the single call that dials it; so it preserves both caps. -/
theorem c2_outgoing_tick_preserves_caps (host : Host) (config : Config) (d0 : Daemon)
    (es : List Event) (hnew : NewDaemon host config = some d0)
    (hmax : 0 ≤ d0.Config.PendingMax) (hes : es.all Event.dialsUnderCaps = true) :
    (run d0 es).pendingConnections.len ≤ (run d0 es).Config.PendingMax ∧
    ∀ (env : Env) (d : Daemon),
      (¬ OutgoingGuard d → step d (Event.outgoingConnectionsTicker env) = (d, [])) ∧
      (OutgoingGuard d →
        step d (Event.outgoingConnectionsTicker env) = connectToRandomPeer env d) ∧
      (step d (Event.outgoingConnectionsTicker env) = (d, []) ∨
        ∃ p ∈ env.RandomPublic, OutgoingGuard d ∧
          step d (Event.outgoingConnectionsTicker env) =
            ({ d with pendingConnections := d.pendingConnections.set p.Addr p },
              [Effect.Dial p])) ∧
      (step d (Event.outgoingConnectionsTicker env)).1.pendingConnections.len ≤
        d.pendingConnections.len + 1 ∧
      (step d (Event.outgoingConnectionsTicker env)).2.length ≤ 1 ∧
      (step d (Event.outgoingConnectionsTicker env)).1.Config = d.Config ∧
      (step d (Event.outgoingConnectionsTicker env)).1.OutgoingConnections =
        d.OutgoingConnections ∧
      (step d (Event.outgoingConnectionsTicker env)).1.ExpectingIntroductions =
        d.ExpectingIntroductions ∧
      (WithinCaps d → WithinCaps (step d (Event.outgoingConnectionsTicker env)).1) := by
  constructor
  · apply run_pending_cap d0 es hes
    rw [(NewDaemon_maps host config d0 hnew).2.1]
    simpa [GoMap.len, GoMap.empty] using hmax
  · intro env d
    have hstep : step d (Event.outgoingConnectionsTicker env) = outgoingTick env d := rfl
    rw [hstep]
    refine ⟨outgoingTick_closed env d, outgoingTick_open env d, outgoingTick_outcome env d,
      ?_, ?_, ?_, ?_, ?_, ?_⟩
    · rcases outgoingTick_outcome env d with h0 | ⟨p, _, _, h1⟩
      · rw [h0]
        show d.pendingConnections.len ≤ d.pendingConnections.len + 1
        omega
      · rw [h1]
        exact GoMap.len_set_le _ _ _
    · rcases outgoingTick_outcome env d with h0 | ⟨p, _, _, h1⟩
      · rw [h0]
        simp
      · rw [h1]
        simp
    · rcases outgoingTick_outcome env d with h0 | ⟨p, _, _, h1⟩
      · rw [h0]
      · rw [h1]
    · rcases outgoingTick_outcome env d with h0 | ⟨p, _, _, h1⟩
      · rw [h0]
      · rw [h1]
    · rcases outgoingTick_outcome env d with h0 | ⟨p, _, _, h1⟩
      · rw [h0]
      · rw [h1]
    · intro hw
      refine ⟨?_, outgoingTick_pending_cap env d hw.2⟩
      rcases outgoingTick_outcome env d with h0 | ⟨p, _, _, h1⟩
      · rw [h0]
        exact hw.1
      · rw [h1]
        exact hw.1

/-- Witness for C2 amended: the nine ticks and nine accepted connections
from the fresh default daemon stay within PendingMax, and the tick on the
resulting daemon, whose OutgoingConnections holds nine entries against
OutgoingMax 8, does nothing, while the tick on the fresh daemon dials
peerA. -/
theorem c2_outgoing_tick_preserves_caps_witness :
    NewDaemon sampleHost sampleConfig = some freshDaemon ∧
    nineDialsSucceed.all Event.dialsUnderCaps = true ∧
    (run freshDaemon nineDialsSucceed).pendingConnections.len ≤
      (run freshDaemon nineDialsSucceed).Config.PendingMax ∧
    ¬ OutgoingGuard (run freshDaemon nineDialsSucceed) ∧
    step (run freshDaemon nineDialsSucceed)
        (Event.outgoingConnectionsTicker (envWith GoMap.empty [peerA] 300)) =
      (run freshDaemon nineDialsSucceed, []) ∧
    OutgoingGuard freshDaemon ∧
    (step freshDaemon
        (Event.outgoingConnectionsTicker (envWith GoMap.empty [peerA] 300))).2 =
      [Effect.Dial peerA] :=
  have hnew : NewDaemon sampleHost sampleConfig = some freshDaemon := rfl
  have hes : nineDialsSucceed.all Event.dialsUnderCaps = true := by decide
  have h := c2_outgoing_tick_preserves_caps sampleHost sampleConfig freshDaemon
    nineDialsSucceed hnew (by decide) hes
  have hfull : ¬ OutgoingGuard (run freshDaemon nineDialsSucceed) := by
    intro hg
    exact absurd hg.2.1 (by decide)
  have hopen : OutgoingGuard freshDaemon := ⟨rfl, by decide, by decide⟩
  ⟨hnew, hes, h.1, hfull,
    (h.2 (envWith GoMap.empty [peerA] 300) (run freshDaemon nineDialsSucceed)).1 hfull,
    hopen,
    by rw [(h.2 (envWith GoMap.empty [peerA] 300) freshDaemon).2.1 hopen]; decide⟩

/-- Claim C3 fails on the code: with addrA recorded in OutgoingConnections
(connA) and ExpectingIntroductions (time 100) and live in the transport, a
second solicited connection connA2 to addrA at time 200 is told to disconnect
with DisconnectConnectedTwice, and the handler then goes on to overwrite both
records with connA2 and 200 and to send the introduction on connA2. -/
theorem c3_duplicate_connect_overwrites_records :
    connectedDaemon.OutgoingConnections.get addrA = some connA ∧
    connectedDaemon.ExpectingIntroductions.get addrA = some 100 ∧
    (envWith poolA [] 200).IsBlacklisted addrA = false ∧
    (envWith poolA [] 200).Pool.Addresses.get addrA = some connA ∧
    (onConnect (envWith poolA [] 200) connectedDaemon connA2 true).1.OutgoingConnections.get addrA
      = some connA2 ∧
    (onConnect (envWith poolA [] 200) connectedDaemon connA2 true).1.ExpectingIntroductions.get addrA
      = some 200 ∧
    (onConnect (envWith poolA [] 200) connectedDaemon connA2 false).1.ExpectingIntroductions.get addrA
      = some 200 ∧
    (onConnect (envWith poolA [] 200) connectedDaemon connA2 true).2 =
      [Effect.Disconnect connA2 DisconnectConnectedTwice,
       Effect.Send connA2 { Mirror := 424242, Version := 3, Port := 6677 }] := by
  decide

/-- Claim C4: when the address of c is blacklisted, onConnect removes it from
pendingConnections, makes the single call Disconnect(c, DisconnectIsBlacklisted)
and nothing else: the configuration, OutgoingConnections and
ExpectingIntroductions are unchanged and no introduction is sent. -/
theorem c4_onConnect_blacklisted (env : Env) (d : Daemon) (c : Connection) (solicited : Bool)
    (hb : env.IsBlacklisted c.Addr = true) :
    (onConnect env d c solicited).1.pendingConnections = d.pendingConnections.delete c.Addr ∧
    (onConnect env d c solicited).1.pendingConnections.get c.Addr = none ∧
    (onConnect env d c solicited).1.OutgoingConnections = d.OutgoingConnections ∧
    (onConnect env d c solicited).1.ExpectingIntroductions = d.ExpectingIntroductions ∧
    (onConnect env d c solicited).1.Config = d.Config ∧
    (onConnect env d c solicited).2 = [Effect.Disconnect c DisconnectIsBlacklisted] := by
  refine ⟨onConnect_pending env d c solicited, ?_, ?_, ?_, onConnect_config env d c solicited, ?_⟩
  · rw [onConnect_pending]
    exact GoMap.get_delete_self _ _
  · rw [onConnect_outgoing]
    simp [hb]
  · rw [onConnect_expecting]
    simp [hb]
  · simp [onConnect, hb]

/-- Witness for C4: a solicited connection to the blacklisted addrA, while a
dial to addrA is pending. -/
theorem c4_onConnect_blacklisted_witness :
    blacklistEnv.IsBlacklisted connA.Addr = true ∧
    pendingDaemon.pendingConnections.get addrA = some peerA ∧
    (onConnect blacklistEnv pendingDaemon connA true).1.pendingConnections.get connA.Addr = none ∧
    (onConnect blacklistEnv pendingDaemon connA true).2 =
      [Effect.Disconnect connA DisconnectIsBlacklisted] :=
  have hb : blacklistEnv.IsBlacklisted connA.Addr = true := by decide
  have h := c4_onConnect_blacklisted blacklistEnv pendingDaemon connA true hb
  ⟨hb, by decide, h.2.1, h.2.2.2.2.2⟩

/-- Claim C5: when the address a of c is neither blacklisted nor live in the
transport map, onConnect at time now leaves a absent from pendingConnections,
sets ExpectingIntroductions[a] = now, sets OutgoingConnections[a] = c when
solicited and leaves OutgoingConnections unchanged when not, issues no
Disconnect, and sends exactly one introduction on c carrying the mirror
constant, Config.Version and the pool port. -/
theorem c5_onConnect_accepts (env : Env) (d : Daemon) (c : Connection) (solicited : Bool)
    (hb : env.IsBlacklisted c.Addr = false) (hlive : env.Pool.Addresses.get c.Addr = none) :
    (onConnect env d c solicited).1.pendingConnections.get c.Addr = none ∧
    (onConnect env d c solicited).1.ExpectingIntroductions.get c.Addr = some env.Now ∧
    (solicited = true →
      (onConnect env d c solicited).1.OutgoingConnections.get c.Addr = some c) ∧
    (solicited = false →
      (onConnect env d c solicited).1.OutgoingConnections = d.OutgoingConnections) ∧
    (onConnect env d c solicited).2 =
      [Effect.Send c { Mirror := env.MirrorConstant, Version := d.Config.Version,
                       Port := env.Pool.ConfigPort }] := by
  refine ⟨?_, ?_, ?_, ?_, ?_⟩
  · rw [onConnect_pending]
    exact GoMap.get_delete_self _ _
  · rw [onConnect_expecting]
    simp [hb, GoMap.get_set_self]
  · intro hs
    rw [onConnect_outgoing]
    simp [hb, hs, GoMap.get_set_self]
  · intro hs
    rw [onConnect_outgoing]
    simp [hs]
  · simp [onConnect, hb, hlive]

/-- Witness for C5: the solicited connection to addrA of the scenario, with a
dial to addrA pending and nothing live. -/
theorem c5_onConnect_accepts_witness :
    (envWith GoMap.empty [] 100).IsBlacklisted connA.Addr = false ∧
    (envWith GoMap.empty [] 100).Pool.Addresses.get connA.Addr = none ∧
    (onConnect (envWith GoMap.empty [] 100) pendingDaemon connA true).1.OutgoingConnections.get
      connA.Addr = some connA ∧
    (onConnect (envWith GoMap.empty [] 100) pendingDaemon connA true).2 =
      [Effect.Send connA { Mirror := 424242, Version := 3, Port := 6677 }] :=
  have h := c5_onConnect_accepts (envWith GoMap.empty [] 100) pendingDaemon connA true rfl rfl
  ⟨rfl, rfl, h.2.2.1 rfl, h.2.2.2.2⟩

/-- Claim C6: connectToPeer returns the outgoing-disabled error exactly when
Config.DisableOutgoingConnections is set; otherwise the invalid-peer error
exactly when SplitAddr fails on the address; otherwise the already-connected
error exactly when the transport map has a live connection for the address;
and nil in every other case. -/
theorem c6_connectToPeer_errors (env : Env) (d : Daemon) (p : Peer) :
    ((connectToPeer env d p).1 = some ConnectError.OutgoingDisabled ↔
      d.Config.DisableOutgoingConnections = true) ∧
    ((connectToPeer env d p).1 = some ConnectError.InvalidPeer ↔
      d.Config.DisableOutgoingConnections = false ∧ (SplitAddr p.Addr).2.2 ≠ none) ∧
    ((connectToPeer env d p).1 = some ConnectError.AlreadyConnected ↔
      d.Config.DisableOutgoingConnections = false ∧ (SplitAddr p.Addr).2.2 = none ∧
        env.Pool.Addresses.get p.Addr ≠ none) ∧
    ((connectToPeer env d p).1 = none ↔
      d.Config.DisableOutgoingConnections = false ∧ (SplitAddr p.Addr).2.2 = none ∧
        env.Pool.Addresses.get p.Addr = none) := by
  unfold connectToPeer
  cases hdis : d.Config.DisableOutgoingConnections with
  | true => simp
  | false =>
    cases hsplit : (SplitAddr p.Addr).2.2 with
    | some e => simp
    | none =>
      cases hpool : env.Pool.Addresses.get p.Addr with
      | some c => simp
      | none => simp

/-- Witness for C6: one input for each of the four outcomes. -/
theorem c6_connectToPeer_errors_witness :
    (connectToPeer (envWith GoMap.empty [] 100) disabledDaemon badPeer).1 =
      some ConnectError.OutgoingDisabled ∧
    (connectToPeer (envWith poolA [] 100) freshDaemon badPeer).1 =
      some ConnectError.InvalidPeer ∧
    (connectToPeer (envWith poolA [] 100) freshDaemon peerA).1 =
      some ConnectError.AlreadyConnected ∧
    (connectToPeer (envWith poolA [] 100) freshDaemon peerB).1 = none :=
  ⟨(c6_connectToPeer_errors (envWith GoMap.empty [] 100) disabledDaemon badPeer).1.2 rfl,
   (c6_connectToPeer_errors (envWith poolA [] 100) freshDaemon badPeer).2.1.2
     ⟨rfl, by decide⟩,
   (c6_connectToPeer_errors (envWith poolA [] 100) freshDaemon peerA).2.2.1.2
     ⟨rfl, by decide, by decide⟩,
   (c6_connectToPeer_errors (envWith poolA [] 100) freshDaemon peerB).2.2.2.2
     ⟨rfl, by decide, by decide⟩⟩

/-- Claim C7: when connectToPeer returns an error, no connection attempt was
made: the daemon (configuration, pendingConnections, OutgoingConnections and
ExpectingIntroductions) is exactly as before and no dial task is launched. -/
theorem c7_connectToPeer_error_no_attempt (env : Env) (d : Daemon) (p : Peer)
    (h : (connectToPeer env d p).1 ≠ none) :
    (connectToPeer env d p).2.1 = d ∧ (connectToPeer env d p).2.2 = [] := by
  rcases connectToPeer_shape env d p with ⟨_, hs⟩ | ⟨hnil, _⟩
  · rw [hs]
    exact ⟨rfl, rfl⟩
  · exact absurd hnil h

/-- Witness for C7: the address not-an-address of the scenario, met with a
dial to addrA pending. -/
theorem c7_connectToPeer_error_no_attempt_witness :
    (connectToPeer (envWith GoMap.empty [] 100) pendingDaemon badPeer).1 =
      some ConnectError.InvalidPeer ∧
    (connectToPeer (envWith GoMap.empty [] 100) pendingDaemon badPeer).2.1 = pendingDaemon ∧
    (connectToPeer (envWith GoMap.empty [] 100) pendingDaemon badPeer).2.2 = [] :=
  have he : (connectToPeer (envWith GoMap.empty [] 100) pendingDaemon badPeer).1 =
      some ConnectError.InvalidPeer := by decide
  have h := c7_connectToPeer_error_no_attempt (envWith GoMap.empty [] 100) pendingDaemon badPeer
    (by rw [he]; exact Option.some_ne_none _)
  ⟨he, h.1, h.2⟩

/-- Claim C8: when connectToPeer returns nil, pendingConnections maps p.Addr
to p and is otherwise unchanged, exactly one dial task, for p, is launched,
and the configuration, OutgoingConnections and ExpectingIntroductions are
unchanged; the task itself sends at most one value on connectionErrors, namely
ConnectionError(p.Addr, err) when the dial fails with err, and nothing when
the dial succeeds. -/
theorem c8_connectToPeer_nil_registers_and_dials (env : Env) (d : Daemon) (p : Peer)
    (h : (connectToPeer env d p).1 = none) :
    (connectToPeer env d p).2.1.pendingConnections = d.pendingConnections.set p.Addr p ∧
    (connectToPeer env d p).2.1.pendingConnections.get p.Addr = some p ∧
    (∀ a : String, a ≠ p.Addr →
      (connectToPeer env d p).2.1.pendingConnections.get a = d.pendingConnections.get a) ∧
    (connectToPeer env d p).2.2 = [Effect.Dial p] ∧
    (connectToPeer env d p).2.1.OutgoingConnections = d.OutgoingConnections ∧
    (connectToPeer env d p).2.1.ExpectingIntroductions = d.ExpectingIntroductions ∧
    (connectToPeer env d p).2.1.Config = d.Config ∧
    (∀ res : Except String Connection, (dialTask p res).length ≤ 1) ∧
    (∀ err : String, dialTask p (.error err) = [{ Addr := p.Addr, Error := err }]) ∧
    (∀ c : Connection, dialTask p (.ok c) = []) := by
  rcases connectToPeer_shape env d p with ⟨herr, _⟩ | ⟨_, _, _, _, hs⟩
  · exact absurd h herr
  · rw [hs]
    refine ⟨rfl, GoMap.get_set_self _ _ _, fun a ha => GoMap.get_set_other _ _ ha, rfl, rfl, rfl,
      rfl, ?_, fun _ => rfl, fun _ => rfl⟩
    intro res
    cases res <;> simp [dialTask]

/-- Witness for C8: dialing peerB from the daemon with addrA pending. -/
theorem c8_connectToPeer_nil_registers_and_dials_witness :
    (connectToPeer (envWith poolA [] 100) pendingDaemon peerB).1 = none ∧
    (connectToPeer (envWith poolA [] 100) pendingDaemon peerB).2.1.pendingConnections.get addrB
      = some peerB ∧
    (connectToPeer (envWith poolA [] 100) pendingDaemon peerB).2.2 = [Effect.Dial peerB] :=
  have hn : (connectToPeer (envWith poolA [] 100) pendingDaemon peerB).1 = none := by decide
  have h := c8_connectToPeer_nil_registers_and_dials (envWith poolA [] 100) pendingDaemon peerB hn
  ⟨hn, h.2.1, h.2.2.2.1⟩

/-- Claim C9, as stated, fails: with a dial to addrA already pending and no
live connection to addrA, connectToPeer for addrA returns nil and launches a
second dial task. -/
theorem c9_pending_address_dialed_again :
    pendingDaemon.pendingConnections.contains peerA.Addr = true ∧
    (connectToPeer (envWith GoMap.empty [] 100) pendingDaemon peerA).1 = none ∧
    (connectToPeer (envWith GoMap.empty [] 100) pendingDaemon peerA).2.2 = [Effect.Dial peerA] := by
  decide

/-- Claim C9, amended: connectToPeer launches no dial task for an address
that has a live connection in the transport map; membership of the address
in pendingConnections is not consulted, and the dial task is launched exactly
when outgoing connections are enabled, the address parses and it has no
live connection. -/
theorem c9_connectToPeer_dials_iff_not_live (env : Env) (d : Daemon) (p : Peer) :
    (env.Pool.Addresses.get p.Addr ≠ none → (connectToPeer env d p).2.2 = []) ∧
    ((connectToPeer env d p).2.2 = [Effect.Dial p] ↔
      d.Config.DisableOutgoingConnections = false ∧ (SplitAddr p.Addr).2.2 = none ∧
        env.Pool.Addresses.get p.Addr = none) ∧
    ((connectToPeer env d p).2.2 = [] ∨ (connectToPeer env d p).2.2 = [Effect.Dial p]) := by
  unfold connectToPeer
  cases hdis : d.Config.DisableOutgoingConnections with
  | true => simp
  | false =>
    cases hsplit : (SplitAddr p.Addr).2.2 with
    | some e => simp
    | none =>
      cases hpool : env.Pool.Addresses.get p.Addr with
      | some c => simp
      | none => simp

/-- Witness for C9 amended: addrA is pending and live, and is not dialed. -/
theorem c9_connectToPeer_dials_iff_not_live_witness :
    pendingDaemon.pendingConnections.contains peerA.Addr = true ∧
    (envWith poolA [] 100).Pool.Addresses.get peerA.Addr ≠ none ∧
    (connectToPeer (envWith poolA [] 100) pendingDaemon peerA).2.2 = [] :=
  have hl : (envWith poolA [] 100).Pool.Addresses.get peerA.Addr ≠ none := by decide
  ⟨by decide, hl,
    (c9_connectToPeer_dials_iff_not_live (envWith poolA [] 100) pendingDaemon peerA).1 hl⟩

/-- Claim C10: onGnetDisconnect(c, r) adds the blacklist entry (a, d) for the
address a of c exactly when BlacklistOffenses maps r to d and makes no other
call, removes a from OutgoingConnections and from ExpectingIntroductions, and
leaves the configuration, pendingConnections and the entries of every other
address unchanged. -/
theorem c10_onGnetDisconnect (self : Daemon) (c : Connection) (r : DisconnectReason) :
    (∀ dur : Duration, Effect.AddBlacklistEntry c.Addr dur ∈ (onGnetDisconnect self c r).2 ↔
      BlacklistOffenses r = some dur) ∧
    (∀ e : Effect, e ∈ (onGnetDisconnect self c r).2 →
      ∃ dur : Duration, e = Effect.AddBlacklistEntry c.Addr dur) ∧
    (onGnetDisconnect self c r).2.length ≤ 1 ∧
    (onGnetDisconnect self c r).1.OutgoingConnections.get c.Addr = none ∧
    (onGnetDisconnect self c r).1.ExpectingIntroductions.get c.Addr = none ∧
    (onGnetDisconnect self c r).1.pendingConnections = self.pendingConnections ∧
    (onGnetDisconnect self c r).1.Config = self.Config ∧
    (∀ b : String, b ≠ c.Addr →
      (onGnetDisconnect self c r).1.OutgoingConnections.get b = self.OutgoingConnections.get b ∧
      (onGnetDisconnect self c r).1.ExpectingIntroductions.get b =
        self.ExpectingIntroductions.get b) := by
  refine ⟨?_, ?_, ?_, GoMap.get_delete_self _ _, GoMap.get_delete_self _ _, rfl, rfl, ?_⟩
  · intro dur
    unfold onGnetDisconnect
    cases BlacklistOffenses r with
    | none => simp
    | some v =>
      simp only [List.mem_singleton, Effect.AddBlacklistEntry.injEq, true_and, Option.some.injEq]
      exact eq_comm
  · intro e
    unfold onGnetDisconnect
    cases BlacklistOffenses r with
    | none => simp
    | some v =>
      simp only [List.mem_singleton]
      intro he
      exact ⟨v, he⟩
  · unfold onGnetDisconnect
    cases BlacklistOffenses r <;> simp
  · intro b hb
    exact ⟨GoMap.get_delete_other _ hb, GoMap.get_delete_other _ hb⟩

/-- Witness for C10: addrA disconnects for an introduction timeout (banned
one hour) and for a version mismatch (no ban) while addrB stays recorded. -/
theorem c10_onGnetDisconnect_witness :
    (onGnetDisconnect connectedDaemon connA DisconnectIntroductionTimeout).2 =
      [Effect.AddBlacklistEntry addrA 3600000000000] ∧
    (onGnetDisconnect connectedDaemon connA DisconnectInvalidVersion).2 = [] ∧
    connectedDaemon.OutgoingConnections.get addrA = some connA ∧
    (onGnetDisconnect connectedDaemon connA DisconnectInvalidVersion).1.OutgoingConnections.get
      connA.Addr = none :=
  ⟨by decide, by decide, by decide,
    (c10_onGnetDisconnect connectedDaemon connA DisconnectInvalidVersion).2.2.2.1⟩

/-- Claim C11: the BlacklistOffenses lookup is the table of the
specification: DisconnectSelf gives 24 hours, DisconnectIntroductionTimeout 1
hour, the three gnet message reasons 8 hours each, and DisconnectIsBlacklisted,
DisconnectConnectedTwice, DisconnectInvalidVersion, DisconnectOtherError and
any other transport reason have no entry. -/
theorem c11_blacklist_offenses_table :
    Hour = 3600000000000 ∧
    BlacklistOffenses DisconnectSelf = some (24 * Hour) ∧
    BlacklistOffenses DisconnectIntroductionTimeout = some Hour ∧
    BlacklistOffenses gnetDisconnectInvalidMessageLength = some (8 * Hour) ∧
    BlacklistOffenses gnetDisconnectMalformedMessage = some (8 * Hour) ∧
    BlacklistOffenses gnetDisconnectUnknownMessage = some (8 * Hour) ∧
    BlacklistOffenses DisconnectIsBlacklisted = none ∧
    BlacklistOffenses DisconnectConnectedTwice = none ∧
    BlacklistOffenses DisconnectInvalidVersion = none ∧
    BlacklistOffenses DisconnectOtherError = none ∧
    (∀ msg : String, BlacklistOffenses (gnetOther msg) = none) := by
  refine ⟨by decide, by decide, by decide, by decide, by decide, by decide, by decide, by decide,
    by decide, by decide, ?_⟩
  intro msg
  simp [BlacklistOffenses, BlacklistOffensesTable]

/-- Claim C17: handleConnectionError(e) removes e.Addr from
pendingConnections, asks the peer directory for RemovePeer(e.Addr) exactly
once and makes no other call (no Disconnect, no dial), and leaves the pending
entries of all other addresses, OutgoingConnections, ExpectingIntroductions
and the configuration unchanged. -/
theorem c17_handleConnectionError (d : Daemon) (e : ConnectionError) :
    (handleConnectionError d e).1.pendingConnections.get e.Addr = none ∧
    (∀ b : String, b ≠ e.Addr →
      (handleConnectionError d e).1.pendingConnections.get b = d.pendingConnections.get b) ∧
    (handleConnectionError d e).2 = [Effect.RemovePeer e.Addr] ∧
    (handleConnectionError d e).1.OutgoingConnections = d.OutgoingConnections ∧
    (handleConnectionError d e).1.ExpectingIntroductions = d.ExpectingIntroductions ∧
    (handleConnectionError d e).1.Config = d.Config :=
  ⟨GoMap.get_delete_self _ _, fun _ hb => GoMap.get_delete_other _ hb, rfl, rfl, rfl, rfl⟩

/-- Witness for C17: the dial of addrA fails while addrA and addrB are
pending; addrB stays pending. -/
theorem c17_handleConnectionError_witness :
    twoPendingDaemon.pendingConnections.get addrA = some peerA ∧
    (handleConnectionError twoPendingDaemon dialFailureA).1.pendingConnections.get
      dialFailureA.Addr = none ∧
    (handleConnectionError twoPendingDaemon dialFailureA).1.pendingConnections.get addrB
      = some peerB ∧
    (handleConnectionError twoPendingDaemon dialFailureA).2 = [Effect.RemovePeer addrA] :=
  have h := c17_handleConnectionError twoPendingDaemon dialFailureA
  ⟨by decide, h.1, (h.2.1 addrB (by decide)).trans (by decide), h.2.2.1⟩

/-- Claim C18: whenever preprocess returns a configuration r for the input
c: if c.Daemon.LocalhostOnly is set then r.DHT.Disabled and
r.Peers.AllowLocalhost are true and, when c.Daemon.Address was empty,
r.Daemon.Address is the resolved loopback address: the result of LocalhostIP,
which is the IP of the first loopback IP network the host's interfaces
report (an address given explicitly is kept, and is one IsLocalhost accepts);
if c.Daemon.DisableNetworking is set then r.Peers.Disabled, r.DHT.Disabled,
r.Daemon.DisableIncomingConnections and r.Daemon.DisableOutgoingConnections
are all true. -/
theorem c18_preprocess (host : Host) (c r : Config) (h : c.preprocess host = some r) :
    (c.Daemon.LocalhostOnly = true →
      r.DHT.Disabled = true ∧ r.Peers.AllowLocalhost = true ∧
        (c.Daemon.Address = "" →
          LocalhostIP host = .ok r.Daemon.Address ∧ FirstLoopback host r.Daemon.Address) ∧
        (c.Daemon.Address ≠ "" →
          r.Daemon.Address = c.Daemon.Address ∧ host.IsLocalhost c.Daemon.Address = true)) ∧
    (c.Daemon.DisableNetworking = true →
      r.Peers.Disabled = true ∧ r.DHT.Disabled = true ∧
        r.Daemon.DisableIncomingConnections = true ∧
        r.Daemon.DisableOutgoingConnections = true) := by
  unfold Config.preprocess at h
  cases hlo : c.Daemon.LocalhostOnly <;> cases hdn : c.Daemon.DisableNetworking
  · simp [hlo, hdn]
  · simp only [hlo, hdn] at h
    simp at h
    subst h
    simp [hdn]
  · simp only [hlo] at h
    by_cases ha : c.Daemon.Address = ""
    · cases hip : LocalhostIP host with
      | error err => simp [ha, hip] at h
      | ok ip =>
        have hfirst := LocalhostIP_ok host ip hip
        simp [ha, hip, hdn] at h
        subst h
        simpa [ha] using hfirst
    · cases hl : host.IsLocalhost c.Daemon.Address with
      | false => simp [ha, hl] at h
      | true =>
        simp [ha, hl, hdn] at h
        subst h
        simp [ha, hl]
  · simp only [hlo] at h
    by_cases ha : c.Daemon.Address = ""
    · cases hip : LocalhostIP host with
      | error err => simp [ha, hip] at h
      | ok ip =>
        have hfirst := LocalhostIP_ok host ip hip
        simp [ha, hip, hdn] at h
        subst h
        simpa [ha] using hfirst
    · cases hl : host.IsLocalhost c.Daemon.Address with
      | false => simp [ha, hl] at h
      | true =>
        simp [ha, hl, hdn] at h
        subst h
        simp [ha, hl]

/-- Witness for C18: localhost only with no address and networking disabled,
on a host whose second interface reports the loopback addresses ::1 and
127.0.0.1 in that order: the address becomes ::1, the first one reported. -/
theorem c18_preprocess_witness :
    localOnlyConfig.preprocess twoLoopbackHost =
      some { Daemon := { NewDaemonConfig with
                          LocalhostOnly := true, DisableNetworking := true,
                          Address := "::1", DisableIncomingConnections := true,
                          DisableOutgoingConnections := true }
             Peers := { Disabled := true, AllowLocalhost := true }
             DHT := { Disabled := true, Port := 6677 } } ∧
    LocalhostIP twoLoopbackHost = .ok "::1" ∧
    FirstLoopback twoLoopbackHost "::1" ∧
    ((localOnlyConfig.preprocess twoLoopbackHost).map
      (fun r => (r.DHT.Disabled, r.Peers.AllowLocalhost, r.Peers.Disabled))) =
      some (true, true, true) :=
  have hr : localOnlyConfig.preprocess twoLoopbackHost =
      some { Daemon := { NewDaemonConfig with
                          LocalhostOnly := true, DisableNetworking := true,
                          Address := "::1", DisableIncomingConnections := true,
                          DisableOutgoingConnections := true }
             Peers := { Disabled := true, AllowLocalhost := true }
             DHT := { Disabled := true, Port := 6677 } } := by decide
  have h := c18_preprocess twoLoopbackHost localOnlyConfig _ hr
  ⟨hr, ((h.1 rfl).2.2.1 rfl).1, ((h.1 rfl).2.2.1 rfl).2,
    by rw [hr]; simp [(h.1 rfl).1, (h.1 rfl).2.1, (h.2 rfl).1]⟩

/-- Claim C15: with outgoing connections enabled, connectToRandomPeer tries
the peers of the list RandomPublic returned in order and stops at the first
one for which connectToPeer returns nil. When no peer succeeds the daemon is
unchanged and no dial is launched; when p is the first that succeeds,
pendingConnections is the old map plus p and the only call is the dial of p,
whatever peers follow p in the list; in every case at most one dial task is
launched. -/
theorem c15_connectToRandomPeer (env : Env) (d : Daemon)
    (hen : d.Config.DisableOutgoingConnections = false) :
    ((∀ q ∈ env.RandomPublic, (connectToPeer env d q).1 ≠ none) →
      connectToRandomPeer env d = (d, [])) ∧
    (∀ (pre post : List Peer) (p : Peer), env.RandomPublic = pre ++ p :: post →
      (∀ q ∈ pre, (connectToPeer env d q).1 ≠ none) → (connectToPeer env d p).1 = none →
      connectToRandomPeer env d =
        ({ d with pendingConnections := d.pendingConnections.set p.Addr p }, [Effect.Dial p])) ∧
    (connectToRandomPeer env d).2.length ≤ 1 := by
  unfold connectToRandomPeer
  rw [if_neg (by simp [hen])]
  refine ⟨fun h => randomLoop_all_fail env _ (d, []) h, ?_, ?_⟩
  · intro pre post p hL hpre hp
    rw [hL]
    exact randomLoop_first env pre post p (d, []) hpre hp
  · simpa using randomLoop_calls env env.RandomPublic (d, [])

/-- Witness for C15: the list is the unparsable peer, peerA (live), peerB,
peerC; peerB is the first that can be dialed and peerC is not reached. -/
theorem c15_connectToRandomPeer_witness :
    (envWith poolA [badPeer, peerA, peerB, peerC] 100).RandomPublic =
      [badPeer, peerA] ++ peerB :: [peerC] ∧
    connectToRandomPeer (envWith poolA [badPeer, peerA, peerB, peerC] 100) freshDaemon =
      ({ freshDaemon with pendingConnections := freshDaemon.pendingConnections.set addrB peerB },
        [Effect.Dial peerB]) :=
  ⟨by decide,
    (c15_connectToRandomPeer (envWith poolA [badPeer, peerA, peerB, peerC] 100) freshDaemon
      rfl).2.1 [badPeer, peerA] [peerC] peerB (by decide) (by decide) (by decide)⟩

/-- Claim C16: with outgoing connections enabled, makePrivateConnections
attempts exactly the peers flagged private: afterwards pendingConnections is
the old map plus every private peer of the list whose address parses and has
no live connection, the calls made are the dials of those peers, one each and
in list order, and no peer that is not private is added or dialed. -/
theorem c16_makePrivateConnections (env : Env) (d : Daemon)
    (hen : d.Config.DisableOutgoingConnections = false) :
    makePrivateConnections env d =
      ({ d with pendingConnections :=
          addPending d.pendingConnections (env.Peerlist.filter (privateDialable env)) },
        (env.Peerlist.filter (privateDialable env)).map Effect.Dial) ∧
    (∀ p : Peer, Effect.Dial p ∈ (makePrivateConnections env d).2 ↔
      p ∈ env.Peerlist ∧ p.Private = true ∧ (SplitAddr p.Addr).2.2 = none ∧
        env.Pool.Addresses.get p.Addr = none) ∧
    (∀ p : Peer, p.Private = false → Effect.Dial p ∉ (makePrivateConnections env d).2) := by
  have heq : makePrivateConnections env d =
      ({ d with pendingConnections :=
          addPending d.pendingConnections (env.Peerlist.filter (privateDialable env)) },
        (env.Peerlist.filter (privateDialable env)).map Effect.Dial) := by
    unfold makePrivateConnections
    rw [if_neg (by simp [hen])]
    simpa using privateLoop_eq env env.Peerlist (d, []) hen
  have hmem : ∀ p : Peer, Effect.Dial p ∈ (makePrivateConnections env d).2 ↔
      p ∈ env.Peerlist ∧ p.Private = true ∧ (SplitAddr p.Addr).2.2 = none ∧
        env.Pool.Addresses.get p.Addr = none := by
    intro p
    rw [heq]
    simp only [List.mem_map, List.mem_filter, privateDialable, Bool.and_eq_true,
      Option.isNone_iff_eq_none, Effect.Dial.injEq]
    constructor
    · rintro ⟨a, ⟨ha, ⟨h1, h2⟩, h3⟩, rfl⟩
      exact ⟨ha, h1, h2, h3⟩
    · rintro ⟨h0, h1, h2, h3⟩
      exact ⟨p, ⟨h0, ⟨h1, h2⟩, h3⟩, rfl⟩
  refine ⟨heq, hmem, ?_⟩
  intro p hp hmemp
  have := ((hmem p).1 hmemp).2.1
  rw [hp] at this
  exact absurd this (by simp)

/-- Witness for C16: of the peers privateA (live), peerB (public), privateBad
(unparsable) and privateB, only privateB is added and dialed. -/
theorem c16_makePrivateConnections_witness :
    makePrivateConnections (envWith poolA [privateA, peerB, privateBad, privateB] 100)
        freshDaemon =
      ({ freshDaemon with pendingConnections := (GoMap.empty).set addrB privateB },
        [Effect.Dial privateB]) :=
  (c16_makePrivateConnections (envWith poolA [privateA, peerB, privateBad, privateB] 100)
    freshDaemon rfl).1.trans rfl

/-- Claim C12: for an entry (a, deadline) of ExpectingIntroductions whose
address has the live connection c, cullInvalidConnections treats it as a
timeout exactly when now > deadline + Config.IntroductionWait, strictly. In
that case the entry is deleted, Disconnect(c, DisconnectIntroductionTimeout)
is issued and RemovePeer(a) is requested. Otherwise the entry is kept, no
RemovePeer(a) is requested and every Disconnect issued is for the live
connection of some other address. -/
theorem c12_cull_timeout (env : Env) (d : Daemon) (a : String) (deadline : Time)
    (c : Connection) (hwf : d.ExpectingIntroductions.WF)
    (hent : d.ExpectingIntroductions.get a = some deadline)
    (hlive : env.Pool.Addresses.get a = some c) :
    (env.Now > deadline + d.Config.IntroductionWait →
      (cullInvalidConnections env d).1.ExpectingIntroductions.get a = none ∧
      Effect.Disconnect c DisconnectIntroductionTimeout ∈ (cullInvalidConnections env d).2 ∧
      Effect.RemovePeer a ∈ (cullInvalidConnections env d).2) ∧
    (¬ env.Now > deadline + d.Config.IntroductionWait →
      (cullInvalidConnections env d).1.ExpectingIntroductions.get a = some deadline ∧
      Effect.RemovePeer a ∉ (cullInvalidConnections env d).2 ∧
      ∀ (c' : Connection) (r : DisconnectReason),
        Effect.Disconnect c' r ∈ (cullInvalidConnections env d).2 →
          ∃ b : String, b ≠ a ∧ env.Pool.Addresses.get b = some c') := by
  have hmem := GoMap.mem_entries_of_get _ hent
  rw [cull_eq]
  constructor
  · intro hlate
    have hlt : deadline + d.Config.IntroductionWait < env.Now := hlate
    refine ⟨?_, ?_, ?_⟩
    · show (sweep env _ _ _).get a = none
      rw [sweep_get, if_pos]
      rw [List.any_eq_true]
      exact ⟨(a, deadline), hmem, by simp [cullDrops, hlive, hlt]⟩
    · show Effect.Disconnect c _ ∈ List.flatMap _ _
      rw [List.mem_flatMap]
      exact ⟨(a, deadline), hmem, (mem_cullCalls_disconnect env _ _ _ _).2 ⟨hlive, hlt, rfl⟩⟩
    · show Effect.RemovePeer a ∈ List.flatMap _ _
      rw [List.mem_flatMap]
      exact ⟨(a, deadline), hmem,
        (mem_cullCalls_remove env _ _ _).2 ⟨rfl, by simp [hlive], hlt⟩⟩
  · intro hnot
    have hnlt : ¬ deadline + d.Config.IntroductionWait < env.Now := hnot
    have honly : ∀ e ∈ d.ExpectingIntroductions.entries, e.1 = a →
        ¬ e.2 + d.Config.IntroductionWait < env.Now := by
      intro e he hea
      rw [GoMap.eq_of_mem_of_get _ hwf hent he hea]
      exact hnlt
    refine ⟨?_, ?_, ?_⟩
    · show (sweep env _ _ _).get a = some deadline
      rw [sweep_get, if_neg, hent]
      rw [List.any_eq_true]
      rintro ⟨e, he, hcond⟩
      simp only [Bool.and_eq_true, decide_eq_true_eq] at hcond
      have hee := GoMap.eq_of_mem_of_get _ hwf hent he hcond.1
      rw [hee] at hcond
      simp [cullDrops, hlive, hnlt] at hcond
    · show Effect.RemovePeer a ∉ List.flatMap _ _
      rw [List.mem_flatMap]
      rintro ⟨e, he, hcall⟩
      have h3 := (mem_cullCalls_remove env _ _ _).1 hcall
      exact honly e he h3.1 h3.2.2
    · intro c' r hdis
      have hdis' : Effect.Disconnect c' r ∈
          List.flatMap d.ExpectingIntroductions.entries
            (cullCalls env d.Config.IntroductionWait) := hdis
      rw [List.mem_flatMap] at hdis'
      obtain ⟨e, he, hcall⟩ := hdis'
      have h3 := (mem_cullCalls_disconnect env _ _ _ _).1 hcall
      exact ⟨e.1, fun hea => honly e he hea h3.2.1, h3.1⟩

/-- Witness for C12: at second 40 with IntroductionWait 30 seconds, addrA
(waiting since 0) is overdue and culled, addrB (waiting since second 10, so
exactly at the limit) is kept. -/
theorem c12_cull_timeout_witness :
    ((cullInvalidConnections cullEnv cullDaemon).1.ExpectingIntroductions.get addrA = none ∧
      Effect.Disconnect connA DisconnectIntroductionTimeout ∈
        (cullInvalidConnections cullEnv cullDaemon).2 ∧
      Effect.RemovePeer addrA ∈ (cullInvalidConnections cullEnv cullDaemon).2) ∧
    ((cullInvalidConnections cullEnv cullDaemon).1.ExpectingIntroductions.get addrB =
        some 10000000000 ∧
      Effect.RemovePeer addrB ∉ (cullInvalidConnections cullEnv cullDaemon).2) :=
  have hwf : cullDaemon.ExpectingIntroductions.WF := by
    unfold GoMap.WF
    decide
  have hA := (c12_cull_timeout cullEnv cullDaemon addrA 0 connA hwf (by decide) (by decide)).1
    (by decide)
  have hB := (c12_cull_timeout cullEnv cullDaemon addrB 10000000000 connB hwf (by decide)
    (by decide)).2 (by decide)
  ⟨hA, hB.1, hB.2.1⟩

/-- Claim C13: after cullInvalidConnections every address remaining in
ExpectingIntroductions has a live connection in the transport map; an entry
whose connection has vanished is removed without any RemovePeer for its
address, and every Disconnect issued is for the live connection of an entry
whose introduction is overdue, never for a vanished one. -/
theorem c13_cull_keeps_only_live (env : Env) (d : Daemon) :
    (∀ a : String, (cullInvalidConnections env d).1.ExpectingIntroductions.get a ≠ none →
      env.Pool.Addresses.get a ≠ none) ∧
    (∀ a : String, env.Pool.Addresses.get a = none →
      (cullInvalidConnections env d).1.ExpectingIntroductions.get a = none ∧
      Effect.RemovePeer a ∉ (cullInvalidConnections env d).2) ∧
    (∀ (c : Connection) (r : DisconnectReason),
      Effect.Disconnect c r ∈ (cullInvalidConnections env d).2 →
        ∃ (b : String) (t : Time), (b, t) ∈ d.ExpectingIntroductions.entries ∧
          env.Pool.Addresses.get b = some c ∧ t + d.Config.IntroductionWait < env.Now ∧
          r = DisconnectIntroductionTimeout) := by
  have hgone : ∀ a : String, env.Pool.Addresses.get a = none →
      (cullInvalidConnections env d).1.ExpectingIntroductions.get a = none := by
    intro a ha
    rw [cull_eq]
    show (sweep env _ _ _).get a = none
    rw [sweep_get]
    split
    · rfl
    · rename_i hany
      cases hg : d.ExpectingIntroductions.get a with
      | none => rfl
      | some t =>
        exfalso
        apply hany
        rw [List.any_eq_true]
        exact ⟨(a, t), GoMap.mem_entries_of_get _ hg, by simp [cullDrops, ha]⟩
  refine ⟨?_, ?_, ?_⟩
  · intro a hrem hpool
    exact hrem (hgone a hpool)
  · intro a ha
    refine ⟨hgone a ha, ?_⟩
    rw [cull_eq]
    show Effect.RemovePeer a ∉ List.flatMap _ _
    rw [List.mem_flatMap]
    rintro ⟨e, _, hcall⟩
    have h3 := (mem_cullCalls_remove env _ _ _).1 hcall
    rw [h3.1] at h3
    exact h3.2.1 ha
  · intro c r hdis
    rw [cull_eq] at hdis
    have hdis' : Effect.Disconnect c r ∈
        List.flatMap d.ExpectingIntroductions.entries
          (cullCalls env d.Config.IntroductionWait) := hdis
    rw [List.mem_flatMap] at hdis'
    obtain ⟨e, he, hcall⟩ := hdis'
    have h3 := (mem_cullCalls_disconnect env _ _ _ _).1 hcall
    exact ⟨e.1, e.2, he, h3.1, h3.2.1, h3.2.2⟩

/-- Witness for C13: addrC is expected but no longer live; the sweep drops
it and requests no RemovePeer for it. -/
theorem c13_cull_keeps_only_live_witness :
    cullDaemon.ExpectingIntroductions.get addrC = some 0 ∧
    cullEnv.Pool.Addresses.get addrC = none ∧
    (cullInvalidConnections cullEnv cullDaemon).1.ExpectingIntroductions.get addrC = none ∧
    Effect.RemovePeer addrC ∉ (cullInvalidConnections cullEnv cullDaemon).2 :=
  have hgone : cullEnv.Pool.Addresses.get addrC = none := by decide
  have h := (c13_cull_keeps_only_live cullEnv cullDaemon).2.1 addrC hgone
  ⟨by decide, hgone, h.1, h.2⟩

/-- Claim C14: a second cullInvalidConnections right after the first, with
the same clock reading and the same transport map, changes nothing: the
daemon (pendingConnections, OutgoingConnections, ExpectingIntroductions and
configuration) is the one the first sweep left, and no Disconnect and no
RemovePeer is issued. -/
theorem c14_cull_idempotent (env : Env) (d : Daemon) :
    cullInvalidConnections env (cullInvalidConnections env d).1 =
      ((cullInvalidConnections env d).1, []) := by
  have h1 := cull_eq env d
  have hcfg : (cullInvalidConnections env d).1.Config = d.Config := by rw [h1]
  have hei : (cullInvalidConnections env d).1.ExpectingIntroductions =
      sweep env d.Config.IntroductionWait d.ExpectingIntroductions.entries
        d.ExpectingIntroductions := by rw [h1]
  show List.foldl (cullEntry env) ((cullInvalidConnections env d).1, [])
      (cullInvalidConnections env d).1.ExpectingIntroductions.entries = _
  apply cullFold_kept
  intro e he
  show cullDrops env (cullInvalidConnections env d).1.Config.IntroductionWait e = false
  rw [hcfg]
  rw [hei] at he
  cases hd : cullDrops env d.Config.IntroductionWait e with
  | false => rfl
  | true =>
    exact absurd rfl
      (sweep_no_dropped env _ _ _ (sweep_sub env _ _ _ he) hd he)

/-- Witness for C14: the first sweep of the three expected introductions
issues two calls and leaves only addrB; the second sweep issues none and
leaves the same map. -/
theorem c14_cull_idempotent_witness :
    (cullInvalidConnections cullEnv cullDaemon).2 =
      [Effect.Disconnect connA DisconnectIntroductionTimeout, Effect.RemovePeer addrA] ∧
    (cullInvalidConnections cullEnv cullDaemon).1.ExpectingIntroductions.entries =
      [(addrB, 10000000000)] ∧
    (cullInvalidConnections cullEnv (cullInvalidConnections cullEnv cullDaemon).1).2 = [] ∧
    (cullInvalidConnections cullEnv
      (cullInvalidConnections cullEnv cullDaemon).1).1.ExpectingIntroductions.entries =
      [(addrB, 10000000000)] :=
  have h := c14_cull_idempotent cullEnv cullDaemon
  ⟨by decide, by decide, by rw [h], by rw [h]; decide⟩

/-- Claim C19: for every host text containing no colon and every port p
with 0 <= p <= 65535, SplitAddr of host, a colon and the decimal numeral of p
returns host and p with a nil error. -/
theorem c19_SplitAddr_host_port (host : String) (p : Nat) (hh : ':' ∉ host.data)
    (hp : p ≤ 65535) : SplitAddr (host ++ ":" ++ toString p) = (host, p, none) := by
  have hdata : (host ++ ":" ++ toString p).data = host.data ++ ':' :: Nat.toDigits 10 p := by
    simp [String.data_append, toString, Nat.repr, List.asString]
  obtain ⟨hdig, _, _⟩ := toDigits_spec p
  unfold SplitAddr
  simp only
  rw [hdata, splitOn_append ':' _ _ hh,
    splitOn_of_not_mem ':' _ (colon_not_mem_digits _ hdig)]
  simp only [List.length_cons, List.length_nil, ne_eq, not_true_eq_false, if_false]
  have hparse : ParseUint16 ([host.data, Nat.toDigits 10 p].getD 1 []) = some p :=
    ParseUint16_toDigits p hp
  rw [hparse]
  simp only [List.headD_cons]
  rw [Nat.mod_eq_of_lt (by omega)]

/-- Witness for C19: the address of the scenarios, host 10.0.0.5 and port
6677. -/
theorem c19_SplitAddr_host_port_witness :
    SplitAddr ("10.0.0.5" ++ ":" ++ toString 6677) = ("10.0.0.5", 6677, none) :=
  c19_SplitAddr_host_port "10.0.0.5" 6677 (by decide) (by decide)

/-- Claim C20: SplitAddr(s) succeeds exactly when s contains one colon and
the text after it is a non-empty run of decimal digits whose value is at most
65535; the text before the colon plays no part and is returned as it is; on
every failure the returned port is 0, and so is the result of GetListenPort.
The address ":6677" with an empty host is accepted, and an address with more
than one colon such as "[::1]:6677" is rejected. -/
theorem c20_SplitAddr_succeeds_iff (s : String) :
    ((SplitAddr s).2.2 = none ↔
      s.data.count ':' = 1 ∧ afterColon s ≠ [] ∧
        (∀ ch ∈ afterColon s, ch.isDigit = true) ∧ digitsValue (afterColon s) ≤ 65535) ∧
    ((SplitAddr s).2.2 = none →
      (SplitAddr s).1 = String.mk (beforeColon s) ∧
        (SplitAddr s).2.1 = digitsValue (afterColon s) ∧
        GetListenPort s = digitsValue (afterColon s)) ∧
    ((SplitAddr s).2.2 ≠ none → (SplitAddr s).2.1 = 0 ∧ GetListenPort s = 0) ∧
    SplitAddr ":6677" = ("", 6677, none) ∧
    (SplitAddr "[::1]:6677").2.2 = some (SplitAddrError.InvalidAddr "[::1]:6677") := by
  have hall : (∀ ch ∈ afterColon s, ch.isDigit = true) ↔
      (afterColon s).all Char.isDigit = true := by
    rw [List.all_eq_true]
  have hport : ∀ err, (SplitAddr s).2.2 = some err → GetListenPort s = 0 := by
    intro err herr
    unfold GetListenPort
    rw [herr]
  have hportok : (SplitAddr s).2.2 = none → GetListenPort s = (SplitAddr s).2.1 := by
    intro hok
    unfold GetListenPort
    rw [hok]
  refine ⟨?_, ?_, ?_, by decide, by decide⟩
  · rw [hall, SplitAddr_eq]
    by_cases h : s.data.count ':' = 1
    · rw [if_pos h]
      cases hp : ParseUint16 (afterColon s) with
      | none =>
        simp only [reduceCtorEq, false_iff, not_and]
        intro _ h1 h2 h3
        have := (ParseUint16_eq_some_iff (afterColon s) _).2 ⟨h1, h2, h3, rfl⟩
        rw [hp] at this
        exact absurd this (by simp)
      | some v =>
        have := (ParseUint16_eq_some_iff (afterColon s) v).1 hp
        simp only [true_iff]
        exact ⟨h, this.1, this.2.1, this.2.2.1⟩
    · rw [if_neg h]
      simp [h]
  · intro hok
    have hp' := hportok hok
    rw [SplitAddr_eq] at hok
    rw [hp', SplitAddr_eq]
    by_cases h : s.data.count ':' = 1
    · rw [if_pos h] at hok ⊢
      cases hp : ParseUint16 (afterColon s) with
      | none => simp [hp] at hok
      | some v =>
        have hv := (ParseUint16_eq_some_iff (afterColon s) v).1 hp
        have hmod : v % 65536 = digitsValue (afterColon s) := by
          rw [hv.2.2.2]
          exact Nat.mod_eq_of_lt (by omega)
        simp only [hmod, and_self]
    · rw [if_neg h] at hok
      simp at hok
  · intro herr
    have hzero : (SplitAddr s).2.1 = 0 := by
      rw [SplitAddr_eq] at herr ⊢
      by_cases h : s.data.count ':' = 1
      · rw [if_pos h] at herr ⊢
        cases hp : ParseUint16 (afterColon s) with
        | none => rfl
        | some v => simp [hp] at herr
      · rw [if_neg h]
    refine ⟨hzero, ?_⟩
    cases herr' : (SplitAddr s).2.2 with
    | none => exact absurd herr' herr
    | some err => exact hport err herr'

/-- Witness for C20: the unparsable ports of "a:65536", "a:" and "a:7x" and
the missing colon of "not-an-address" all give port 0, and "h:080" gives 80. -/
theorem c20_SplitAddr_succeeds_iff_witness :
    ((SplitAddr "a:65536").2.1 = 0 ∧ GetListenPort "a:65536" = 0) ∧
    ((SplitAddr "not-an-address").2.1 = 0 ∧ GetListenPort "not-an-address" = 0) ∧
    (SplitAddr "a:").2.2 = some (SplitAddrError.InvalidPort "a:") ∧
    (SplitAddr "a:7x").2.2 = some (SplitAddrError.InvalidPort "a:7x") ∧
    ((SplitAddr "h:080").1 = String.mk (beforeColon "h:080") ∧
      (SplitAddr "h:080").2.1 = digitsValue (afterColon "h:080") ∧
      GetListenPort "h:080" = digitsValue (afterColon "h:080")) ∧
    digitsValue (afterColon "h:080") = 80 :=
  ⟨(c20_SplitAddr_succeeds_iff "a:65536").2.2.1 (by decide),
   (c20_SplitAddr_succeeds_iff "not-an-address").2.2.1 (by decide),
   by decide, by decide,
   (c20_SplitAddr_succeeds_iff "h:080").2.1 (by decide),
   by decide⟩

end Skycoin
